import Mathlib

/-!
Verification of the resilient JSON-recovery and response-validation layer of the
repository: `app/utils/json_extractor.py` (the decoder chain and the score-field
extractor) and the validation / retry / finalization pipelines of
`app/routers/v2.py` (`score`, `generate_vocabulary`, `correct_grammar`).

Python values decoded from JSON are embedded as the inductive `JVal`; Python's
`json.loads` is embedded as an executable recursive-descent parser `jsonParse`
over character lists (numbers are represented by exact rationals); the regex
searches of the source are embedded as explicit character scanners with the
same leftmost-match semantics.  Upstream generation calls are an oracle
`Nat → Option String` giving the raw text of each successive call
(`none` = the provider raised), so the retry controllers become pure functions
of the transcription and the oracle.
-/

namespace OllamaV2

set_option maxRecDepth 100000

attribute [local semireducible] Rat.mul Rat.add Rat.sub Rat.inv Rat.ofScientific

/-- Equality on `Except` results is decidable when it is on both sides. -/
instance {ε α : Type} [DecidableEq ε] [DecidableEq α] : DecidableEq (Except ε α)
  | .ok a, .ok b => decidable_of_iff (a = b) (by simp)
  | .error a, .error b => decidable_of_iff (a = b) (by simp)
  | .ok _, .error _ => isFalse (by simp)
  | .error _, .ok _ => isFalse (by simp)

/-- A decoded JSON value, as produced by Python's `json.loads`.  Objects keep
their fields in insertion order with unique keys, as Python dicts do; numbers
are modelled by exact rationals. -/
inductive JVal where
  | jnull : JVal
  | jbool : Bool → JVal
  | jnum : ℚ → JVal
  | jstr : String → JVal
  | jarr : List JVal → JVal
  | jobj : List (String × JVal) → JVal

namespace JVal

mutual

/-- Structural equality test; the nested list positions are recursed through a
mutual group, since no deriving handler applies to the nested inductive. -/
def beq : JVal → JVal → Bool
  | jnull, jnull => true
  | jbool a, jbool b => a = b
  | jnum a, jnum b => a = b
  | jstr a, jstr b => a = b
  | jarr a, jarr b => beqList a b
  | jobj a, jobj b => beqFields a b
  | _, _ => false

/-- Elementwise equality of value lists. -/
def beqList : List JVal → List JVal → Bool
  | [], [] => true
  | u :: us, w :: ws => beq u w && beqList us ws
  | _, _ => false

/-- Elementwise equality of field lists, names and values together. -/
def beqFields : List (String × JVal) → List (String × JVal) → Bool
  | [], [] => true
  | (ka, va) :: us, (kb, vb) :: ws => ka = kb && beq va vb && beqFields us ws
  | _, _ => false

end

mutual

theorem beq_iff_eq : ∀ a b : JVal, beq a b = true ↔ a = b
  | jnull, jnull => by simp [beq]
  | jbool _, jbool _ => by simp [beq]
  | jnum _, jnum _ => by simp [beq]
  | jstr _, jstr _ => by simp [beq]
  | jarr x, jarr y => by simp [beq, beqList_iff_eq x y]
  | jobj x, jobj y => by simp [beq, beqFields_iff_eq x y]
  | jnull, jbool _ | jnull, jnum _ | jnull, jstr _ | jnull, jarr _ | jnull, jobj _
  | jbool _, jnull | jbool _, jnum _ | jbool _, jstr _ | jbool _, jarr _ | jbool _, jobj _
  | jnum _, jnull | jnum _, jbool _ | jnum _, jstr _ | jnum _, jarr _ | jnum _, jobj _
  | jstr _, jnull | jstr _, jbool _ | jstr _, jnum _ | jstr _, jarr _ | jstr _, jobj _
  | jarr _, jnull | jarr _, jbool _ | jarr _, jnum _ | jarr _, jstr _ | jarr _, jobj _
  | jobj _, jnull | jobj _, jbool _ | jobj _, jnum _ | jobj _, jstr _ | jobj _, jarr _ =>
    by simp [beq]

theorem beqList_iff_eq : ∀ as bs : List JVal, beqList as bs = true ↔ as = bs
  | [], [] => by simp [beqList]
  | [], _ :: _ => by simp [beqList]
  | _ :: _, [] => by simp [beqList]
  | u :: us, w :: ws => by
    simp [beqList, beq_iff_eq u w, beqList_iff_eq us ws]

theorem beqFields_iff_eq :
    ∀ as bs : List (String × JVal), beqFields as bs = true ↔ as = bs
  | [], [] => by simp [beqFields]
  | [], _ :: _ => by simp [beqFields]
  | _ :: _, [] => by simp [beqFields]
  | (ka, va) :: us, (kb, vb) :: ws => by
    simp [beqFields, beq_iff_eq va vb, beqFields_iff_eq us ws, and_assoc]

end

instance : DecidableEq JVal := fun a b =>
  decidable_of_iff (beq a b = true) (beq_iff_eq a b)

/-- Python truthiness (`bool(x)`) of a decoded value: `None`, `False`, `0`,
`""`, `[]` and `{}` are falsy, everything else truthy. -/
def truthy : JVal → Bool
  | jnull => false
  | jbool b => b
  | jnum q => q ≠ 0
  | jstr s => s ≠ ""
  | jarr xs => !xs.isEmpty
  | jobj kvs => !kvs.isEmpty

/-- Python `len(x)`: defined for strings, lists and dicts, a `TypeError`
(`none`) otherwise. -/
def pyLen : JVal → Option Nat
  | jstr s => some s.length
  | jarr xs => some xs.length
  | jobj kvs => some kvs.length
  | _ => none

/-- Key lookup in a decoded object (`dict.get`), first (unique) occurrence. -/
def lookup (kvs : List (String × JVal)) (k : String) : Option JVal :=
  match kvs with
  | [] => none
  | (k0, v) :: rest => if k0 = k then some v else lookup rest k

/-- `d[k] = v` on a Python dict: replace the value in place if the key exists,
append the new pair otherwise. -/
def setKey (kvs : List (String × JVal)) (k : String) (v : JVal) :
    List (String × JVal) :=
  match kvs with
  | [] => [(k, v)]
  | (k0, v0) :: rest => if k0 = k then (k0, v) :: rest else (k0, v0) :: setKey rest k v

end JVal

/-! ## Character-level utilities -/

/-- The four JSON whitespace characters (also what `re`'s `\s` matches on the
texts at hand). -/
def isJsonWs (c : Char) : Bool :=
  c = ' ' || c = '\t' || c = '\n' || c = '\r'

/-- Whitespace stripped by Python's `str.strip()` (ASCII portion). -/
def isPyWs (c : Char) : Bool :=
  isJsonWs c || c = '\x0b' || c = '\x0c'

/-- Drop leading JSON whitespace. -/
def skipWs (cs : List Char) : List Char := cs.dropWhile isJsonWs

/-- `str.strip()` on a character list. -/
def stripChars (cs : List Char) : List Char :=
  ((cs.dropWhile isPyWs).reverse.dropWhile isPyWs).reverse

/-- `str.strip()`. -/
def pyStrip (s : String) : String := String.mk (stripChars s.toList)

/-- `str.lower()` (ASCII). -/
def pyLower (s : String) : String := String.mk (s.toList.map Char.toLower)

/-- Python's `needle in hay` on strings: substring containment. -/
def listContainsSub (hay needle : List Char) : Bool :=
  match hay with
  | [] => needle.isEmpty
  | _ :: rest => List.isPrefixOf needle hay || listContainsSub rest needle

/-- Substring containment on strings. -/
def strContainsSub (hay needle : String) : Bool :=
  listContainsSub hay.toList needle.toList

/-! ## The JSON parser (`json.loads`)

A recursive-descent parser over character lists with explicit fuel, following
the grammar Python's `json` module accepts: the six value forms, the escape
sequences `\" \\ \/ \b \f \n \r \t \uXXXX`, unescaped control characters
rejected, numbers `-?(0|[1-9][0-9]*)(\.[0-9]+)?([eE][+-]?[0-9]+)?`, and no
trailing commas.  Duplicate object keys replace in place, as Python dicts do. -/

/-- Numeric value of a hexadecimal digit (codes 48-57 are the decimal digits,
97-102 the lowercase and 65-70 the uppercase letters). -/
def hexVal? (c : Char) : Option Nat :=
  let n := c.toNat
  if 48 ≤ n && n ≤ 57 then some (n - 48)
  else if 97 ≤ n && n ≤ 102 then some (n - 87)
  else if 65 ≤ n && n ≤ 70 then some (n - 55)
  else none

/-- Body of a JSON string after the opening quote: returns the decoded
characters and the rest after the closing quote. -/
def parseStrBody : List Char → Option (List Char × List Char)
  | [] => none
  | '"' :: rest => some ([], rest)
  | '\\' :: rest =>
    match rest with
    | '"' :: r => (parseStrBody r).map (fun p => ('"' :: p.1, p.2))
    | '\\' :: r => (parseStrBody r).map (fun p => ('\\' :: p.1, p.2))
    | '/' :: r => (parseStrBody r).map (fun p => ('/' :: p.1, p.2))
    | 'b' :: r => (parseStrBody r).map (fun p => ('\x08' :: p.1, p.2))
    | 'f' :: r => (parseStrBody r).map (fun p => ('\x0c' :: p.1, p.2))
    | 'n' :: r => (parseStrBody r).map (fun p => ('\n' :: p.1, p.2))
    | 'r' :: r => (parseStrBody r).map (fun p => ('\r' :: p.1, p.2))
    | 't' :: r => (parseStrBody r).map (fun p => ('\t' :: p.1, p.2))
    | 'u' :: h1 :: h2 :: h3 :: h4 :: r =>
      match hexVal? h1, hexVal? h2, hexVal? h3, hexVal? h4 with
      | some a, some b, some c, some d =>
        (parseStrBody r).map (fun p =>
          (Char.ofNat (((a * 16 + b) * 16 + c) * 16 + d) :: p.1, p.2))
      | _, _, _, _ => none
    | _ => none
  | c :: rest =>
    if c.toNat < 32 then none
    else (parseStrBody rest).map (fun p => (c :: p.1, p.2))

/-- Value of a list of decimal digits. -/
def digitsVal (ds : List Char) : Nat :=
  ds.foldl (fun a c => a * 10 + (c.toNat - '0'.toNat)) 0

/-- A JSON number token: sign, integer part (`0` or nonzero-led digits),
optional fraction (needs at least one digit), optional exponent.  Returns the
exact rational value and the unconsumed rest. -/
def parseNumber (cs : List Char) : Option (ℚ × List Char) :=
  let signed : Bool × List Char :=
    match cs with
    | '-' :: r => (true, r)
    | _ => (false, cs)
  let neg := signed.1
  let cs1 := signed.2
  let core : Option (ℚ × List Char) :=
    match cs1 with
    | [] => none
    | c :: r =>
      if c = '0' then
        some (afterInt 0 r)
      else if c.isDigit then
        some (afterInt (digitsVal (cs1.takeWhile Char.isDigit))
          (cs1.dropWhile Char.isDigit))
      else none
  core.map (fun p => ((if neg then -p.1 else p.1), p.2))
where
  /-- Fraction and exponent after the integer part. -/
  afterInt (ip : Nat) (rest : List Char) : ℚ × List Char :=
    let fr : ℚ × List Char :=
      match rest with
      | '.' :: r =>
        let fds := r.takeWhile Char.isDigit
        if fds.isEmpty then ((ip : ℚ), rest)
        else (((ip : ℚ) + (digitsVal fds : ℚ) / ((10 : ℚ) ^ fds.length)),
              r.dropWhile Char.isDigit)
      | _ => ((ip : ℚ), rest)
    let q := fr.1
    match fr.2 with
    | 'e' :: r => expPart q fr.2 r
    | 'E' :: r => expPart q fr.2 r
    | _ => fr
  /-- Exponent part: `[eE][+-]?[0-9]+`, or nothing if malformed. -/
  expPart (q : ℚ) (whole : List Char) (r : List Char) : ℚ × List Char :=
    let se : Bool × List Char :=
      match r with
      | '+' :: r2 => (false, r2)
      | '-' :: r2 => (true, r2)
      | _ => (false, r)
    let eds := se.2.takeWhile Char.isDigit
    if eds.isEmpty then (q, whole)
    else
      let e := digitsVal eds
      ((if se.1 then q / ((10 : ℚ) ^ e) else q * ((10 : ℚ) ^ e)),
       se.2.dropWhile Char.isDigit)

/-- Insert a parsed object member as Python dict assignment does: replace the
value of an existing key in place, else append. -/
def insertField : List (String × JVal) → String → JVal → List (String × JVal)
  | [], k, v => [(k, v)]
  | (k0, v0) :: rest, k, v =>
    if k0 = k then (k0, v) :: rest else (k0, v0) :: insertField rest k v

mutual

/-- Parse one JSON value (no leading whitespace expected). -/
def parseVal : Nat → List Char → Option (JVal × List Char)
  | 0, _ => none
  | f + 1, cs =>
    match cs with
    | '{' :: rest =>
      match skipWs rest with
      | '}' :: r2 => some (.jobj [], r2)
      | cs2 => (parseFields f cs2 []).map (fun p => (.jobj p.1, p.2))
    | '[' :: rest =>
      match skipWs rest with
      | ']' :: r2 => some (.jarr [], r2)
      | cs2 => (parseElems f cs2 []).map (fun p => (.jarr p.1, p.2))
    | '"' :: rest => (parseStrBody rest).map (fun p => (.jstr (String.mk p.1), p.2))
    | 't' :: 'r' :: 'u' :: 'e' :: rest => some (.jbool true, rest)
    | 'f' :: 'a' :: 'l' :: 's' :: 'e' :: rest => some (.jbool false, rest)
    | 'n' :: 'u' :: 'l' :: 'l' :: rest => some (.jnull, rest)
    | _ => (parseNumber cs).map (fun p => (.jnum p.1, p.2))

/-- Parse the elements of a nonempty array, accumulator in reverse. -/
def parseElems : Nat → List Char → List JVal → Option (List JVal × List Char)
  | 0, _, _ => none
  | f + 1, cs, acc =>
    match parseVal f cs with
    | none => none
    | some (v, rest) =>
      match skipWs rest with
      | ',' :: r2 => parseElems f (skipWs r2) (v :: acc)
      | ']' :: r2 => some ((v :: acc).reverse, r2)
      | _ => none

/-- Parse the members of a nonempty object, accumulator in order. -/
def parseFields : Nat → List Char → List (String × JVal) →
    Option (List (String × JVal) × List Char)
  | 0, _, _ => none
  | f + 1, cs, acc =>
    match cs with
    | '"' :: rest =>
      match parseStrBody rest with
      | none => none
      | some (kcs, r1) =>
        match skipWs r1 with
        | ':' :: r2 =>
          match parseVal f (skipWs r2) with
          | none => none
          | some (v, r3) =>
            let acc2 := insertField acc (String.mk kcs) v
            match skipWs r3 with
            | ',' :: r4 => parseFields f (skipWs r4) acc2
            | '}' :: r4 => some (acc2, r4)
            | _ => none
        | _ => none
    | _ => none

end

/-- `json.loads`: skip surrounding whitespace, parse one value, require the
whole text consumed.  `none` is a `JSONDecodeError`. -/
def jsonParse (s : String) : Option JVal :=
  let cs := skipWs s.toList
  match parseVal (2 * cs.length + 1) cs with
  | some (v, rest) => if skipWs rest = [] then some v else none
  | none => none

/-! ## The brace-balanced scanner and the regex searches of
`extract_json_from_generate_response` -/

/-- Walk a balanced `\x7b...\x7d` span: accumulator holds the consumed prefix
reversed, `depth` the number of open braces (at least 1).  Returns the span and
the rest after it, or `none` when the braces never balance. -/
def balancedAux : List Char → Nat → List Char → Option (List Char × List Char)
  | [], _, _ => none
  | c :: rest, depth, acc =>
    if c = '{' then balancedAux rest (depth + 1) (c :: acc)
    else if c = '}' then
      if depth = 1 then some ((c :: acc).reverse, rest)
      else balancedAux rest (depth - 1) (c :: acc)
    else balancedAux rest depth (c :: acc)

/-- The balanced brace span starting at the head of `cs` (which must be `{`),
with the rest of the text after it. -/
def balancedSpanFrom (cs : List Char) : Option (List Char × List Char) :=
  match cs with
  | '{' :: rest => balancedAux rest 1 ['{']
  | _ => none

/-- Drop up to the first `{` (Python `text.find('{')`). -/
def toFirstBrace (cs : List Char) : List Char := cs.dropWhile (fun c => c ≠ '{')

/-- Strategy 3 scanner: the first balanced span of the text, from the first
`{`. -/
def firstBalancedSpan (cs : List Char) : Option (List Char) :=
  (balancedSpanFrom (toFirstBrace cs)).map Prod.fst

/-- The multi-object scanner: enumerate successive balanced spans, each search
resuming right after the previous span; stop at the first `{` whose braces
never balance.  Fuel bounds the iteration (each span consumes at least two
characters). -/
def multiSpansAux : Nat → List Char → List (List Char)
  | 0, _ => []
  | f + 1, cs =>
    match balancedSpanFrom (toFirstBrace cs) with
    | none => []
    | some (sp, rest) => sp :: multiSpansAux f rest

/-- All balanced spans of the text, in order. -/
def multiSpans (cs : List Char) : List (List Char) :=
  multiSpansAux (cs.length + 1) cs

/-- The backtick character (0x60). -/
def btick : Char := Char.ofNat 96

/-- Three backticks, the code-fence delimiter. -/
def fenceDelim : List Char := [btick, btick, btick]

/-- After the opening fence (and the optional `json` tag): skip `\s*`, expect
`\x7b`, then find the lazily smallest closing `\x7d` followed by `\s*` and a
closing fence.  Returns the braced group. -/
def fencedBodyAt (cs : List Char) : Option (List Char) :=
  match cs.dropWhile isPyWs with
  | '{' :: rest => lazyCloseAux rest ['{']
  | _ => none
where
  /-- Lazy `.*?\x7d` search: stop at the first `\x7d` whose suffix matches
  `\s*` and the closing fence. -/
  lazyCloseAux : List Char → List Char → Option (List Char)
    | [], _ => none
    | c :: rest, acc =>
      if c = '}' && List.isPrefixOf fenceDelim (rest.dropWhile isPyWs) then
        some ((c :: acc).reverse)
      else lazyCloseAux rest (c :: acc)

/-- One anchored attempt of the fenced-block pattern at this position: an
opening fence, an optional greedy `json` tag, then the body. -/
def fencedAt (cs : List Char) : Option (List Char) :=
  match cs with
  | a :: b :: c :: rest =>
    if a = btick && b = btick && c = btick then
      match rest with
      | 'j' :: 's' :: 'o' :: 'n' :: r2 =>
        match fencedBodyAt r2 with
        | some g => some g
        | none => fencedBodyAt rest
      | _ => fencedBodyAt rest
    else none
  | _ => none

/-- Leftmost match of the fenced-block pattern (strategy 2),
`re.search` semantics: try each start position in order. -/
def fencedSearch : List Char → Option (List Char)
  | [] => none
  | c :: rest =>
    match fencedAt (c :: rest) with
    | some g => some g
    | none => fencedSearch rest

/-- A character other than the two braces (the class `[^\x7b\x7d]`). -/
def nonBrace (c : Char) : Bool := c ≠ '{' && c ≠ '}'

/-- Dropping a prefix never lengthens a list (termination helper). -/
theorem lengthDropWhileLe (p : Char → Bool) (l : List Char) :
    (l.dropWhile p).length ≤ l.length := by
  induction l with
  | nil => simp
  | cons c rest ih =>
    simp only [List.dropWhile_cons]
    by_cases h : p c
    · simp only [h, if_true, List.length_cons]
      omega
    · simp [h]

/-- Loop of the bounded salvage pattern: after the opening brace and a
non-brace run, repeat depth-one groups while the next character opens one,
then require the closing brace.  `acc` holds the consumed prefix reversed.
Fuel bounds the iteration (each group consumes at least two characters), so
the definition stays reducible. -/
def salvageLoopAux : Nat → List Char → List Char → Option (List Char)
  | 0, _, _ => none
  | f + 1, cs, acc =>
    match cs with
    | '}' :: _ => some (('}' :: acc).reverse)
    | '{' :: rest =>
      let b := rest.takeWhile nonBrace
      match rest.dropWhile nonBrace with
      | '}' :: r2 =>
        salvageLoopAux f (r2.dropWhile nonBrace)
          ((r2.takeWhile nonBrace).reverse ++ '}' :: b.reverse ++ '{' :: acc)
      | _ => none
    | _ => none

/-- One anchored attempt of the salvage pattern
`\x7b[^\x7b\x7d]*(?:\x7b[^\x7b\x7d]*\x7d[^\x7b\x7d]*)*\x7d` at this
position. -/
def salvageAt (cs : List Char) : Option (List Char) :=
  match cs with
  | '{' :: rest =>
    salvageLoopAux (rest.length + 1) (rest.dropWhile nonBrace)
      ((rest.takeWhile nonBrace).reverse ++ ['{'])
  | _ => none

/-- Leftmost match of the salvage pattern (strategy 4). -/
def salvageSearch : List Char → Option (List Char)
  | [] => none
  | c :: rest =>
    match salvageAt (c :: rest) with
    | some g => some g
    | none => salvageSearch rest

/-- Global `re.sub` of a trailing comma before `close` (`,\s*\x7d` or
`,\s*\x5d`): replace each non-overlapping leftmost match by the closing
character alone.  Fuel bounds the scan (each step consumes at least one
character), so the definition stays reducible. -/
def subTrailCommaAux (close : Char) : Nat → List Char → List Char
  | 0, cs => cs
  | _ + 1, [] => []
  | f + 1, c :: rest =>
    if c = ',' then
      match rest.dropWhile isPyWs with
      | c2 :: r2 =>
        if c2 = close then close :: subTrailCommaAux close f r2
        else ',' :: subTrailCommaAux close f rest
      | [] => ',' :: subTrailCommaAux close f rest
    else c :: subTrailCommaAux close f rest

/-- The trailing-comma substitution at full fuel. -/
def subTrailComma (close : Char) (cs : List Char) : List Char :=
  subTrailCommaAux close cs.length cs

/-- The trailing-comma repair of strategy 3: first `,\s*\x7d`, then
`,\s*\x5d`. -/
def fixTrailingCommas (cs : List Char) : List Char :=
  subTrailComma ']' (subTrailComma '}' cs)

/-! ## The decoder chain (`extract_json_from_generate_response`) -/

/-- The strategy-1 special case: a one-key object `\x7b"content": s\x7d` whose
string value itself decodes to an object is replaced by that object. -/
def unwrapContent (v : JVal) : JVal :=
  match v with
  | .jobj [(k, .jstr s)] =>
    if k = "content" then
      match jsonParse s with
      | some (.jobj kvs) => .jobj kvs
      | _ => v
    else v
  | _ => v

/-- The three keys every vocabulary item must carry. -/
def vocabItemKeys : List String := ["word", "definition", "example"]

/-- `isinstance(obj, dict) and all(key in obj for key in [...])`. -/
def isVocabShaped (v : JVal) : Bool :=
  match v with
  | .jobj kvs => vocabItemKeys.all (fun k => (JVal.lookup kvs k).isSome)
  | _ => false

/-- The successfully decoded objects among the balanced spans. -/
def multiSpanObjs (cs : List Char) : List JVal :=
  (multiSpans cs).filterMap (fun sp => jsonParse (String.mk sp))

/-- Strategy 2: parse the interior of the first fenced code block. -/
def strategyFenced (cs : List Char) : Option JVal :=
  (fencedSearch cs).bind (fun g => jsonParse (String.mk g))

/-- Strategy 3: parse the first balanced span, retrying once after the
trailing-comma repair. -/
def strategyFirstSpan (cs : List Char) : Option JVal :=
  (firstBalancedSpan cs).bind (fun sp =>
    match jsonParse (String.mk sp) with
    | some v => some v
    | none => jsonParse (String.mk (fixTrailingCommas sp)))

/-- Strategy 4: parse the leftmost match of the bounded salvage pattern. -/
def strategySalvage (cs : List Char) : Option JVal :=
  (salvageSearch cs).bind (fun g => jsonParse (String.mk g))

/-- `extract_json_from_generate_response`: the decoder chain.  Strategies in
order: whole-text parse (with the content unwrap), fenced code block, first
balanced span with trailing-comma repair, bounded salvage pattern,
multi-object scan, and the fallback object. -/
def extract_json_from_generate_response (t : String) : JVal :=
  if t = "" then .jobj [("content", .jstr "")]
  else
    let txt := pyStrip t
    let cs := txt.toList
    match jsonParse txt with
    | some v => unwrapContent v
    | none =>
      match strategyFenced cs with
      | some v => v
      | none =>
        match strategyFirstSpan cs with
        | some v => v
        | none =>
          match strategySalvage cs with
          | some v => v
          | none =>
            let objs := multiSpanObjs cs
            if 1 < objs.length then
              if objs.all isVocabShaped then .jobj [("vocabulary", .jarr objs)]
              else .jobj [("items", .jarr objs)]
            else
              match objs with
              | [o] => o
              | _ =>
                .jobj [("content", .jstr txt),
                       ("_parse_error",
                        .jstr "Could not extract JSON from response"),
                       ("_response_preview", .jstr (String.mk (cs.take 500)))]

/-! ## The score extractor (`extract_json_from_response`) and the `score`
endpoint finalization -/

/-- A digit or a dot (the class `[0-9.]`). -/
def isNumDotChar (c : Char) : Bool := c.isDigit || c = '.'

/-- Python `float()` of a text of digits and dots: at most one dot, at least
one digit; `none` is a `ValueError`. -/
def pyFloatDigits (ds : List Char) : Option ℚ :=
  let ip := ds.takeWhile Char.isDigit
  match ds.dropWhile Char.isDigit with
  | [] => if ip.isEmpty then none else some (digitsVal ip)
  | '.' :: r =>
    let fp := r.takeWhile Char.isDigit
    if (r.dropWhile Char.isDigit).isEmpty && !(ip.isEmpty && fp.isEmpty) then
      some ((digitsVal ip : ℚ) + (digitsVal fp : ℚ) / (10 : ℚ) ^ fp.length)
    else none
  | _ => none

/-- Python `float()` of a string: strip, optional sign, mantissa of digits and
at most one dot, optional exponent. -/
def pyFloatStr (s : String) : Option ℚ :=
  let cs := stripChars s.toList
  let se : Bool × List Char :=
    match cs with
    | '+' :: r => (false, r)
    | '-' :: r => (true, r)
    | _ => (false, cs)
  let mant := se.2.takeWhile isNumDotChar
  let rest := se.2.dropWhile isNumDotChar
  let base? : Option ℚ :=
    match rest with
    | [] => pyFloatDigits mant
    | e :: r =>
      if e = 'e' || e = 'E' then
        let se2 : Bool × List Char :=
          match r with
          | '+' :: r2 => (false, r2)
          | '-' :: r2 => (true, r2)
          | _ => (false, r)
        let eds := se2.2.takeWhile Char.isDigit
        if eds.isEmpty || !(se2.2.dropWhile Char.isDigit).isEmpty then none
        else (pyFloatDigits mant).map (fun q =>
          if se2.1 then q / (10 : ℚ) ^ digitsVal eds
          else q * (10 : ℚ) ^ digitsVal eds)
      else none
  base?.map (fun q => if se.1 then -q else q)

/-- Python `float(x)` on a decoded value: numbers pass through, booleans are
`1.0` / `0.0`, strings go through `float(str)`, everything else is a
`TypeError` (`none`). -/
def pyFloatOf (v : JVal) : Option ℚ :=
  match v with
  | .jnum q => some q
  | .jbool b => some (if b then 1 else 0)
  | .jstr s => pyFloatStr s
  | _ => none

/-- The quoted form `"name"` of a key, as the regex patterns spell it. -/
def quotedKey (name : String) : List Char := '"' :: name.toList ++ ['"']

/-- One anchored attempt of the pattern `\x7b[^\x7b\x7d]*"bandScore"[^\x7b\x7d]*\x7d`:
a brace, a run of non-braces containing the quoted key, a closing brace. -/
def bandSpanAt (cs : List Char) : Option (List Char) :=
  match cs with
  | '{' :: rest =>
    let a := rest.takeWhile nonBrace
    match rest.dropWhile nonBrace with
    | '}' :: _ =>
      if listContainsSub a (quotedKey "bandScore") then some ('{' :: a ++ ['}'])
      else none
    | _ => none
  | _ => none

/-- Leftmost match of the `bandScore` brace pattern. -/
def bandSpanSearch : List Char → Option (List Char)
  | [] => none
  | c :: rest =>
    match bandSpanAt (c :: rest) with
    | some g => some g
    | none => bandSpanSearch rest

/-- One anchored attempt of `"name"\s*:\s*([0-9.]+)`: returns the numeric
group. -/
def numFieldAt (key : List Char) (cs : List Char) : Option (List Char) :=
  if List.isPrefixOf key cs then
    match (cs.drop key.length).dropWhile isPyWs with
    | ':' :: r2 =>
      let ds := (r2.dropWhile isPyWs).takeWhile isNumDotChar
      if ds.isEmpty then none else some ds
    | _ => none
  else none

/-- Leftmost match of `"name"\s*:\s*([0-9.]+)`. -/
def numFieldSearch (key : List Char) : List Char → Option (List Char)
  | [] => none
  | c :: rest =>
    match numFieldAt key (c :: rest) with
    | some ds => some ds
    | none => numFieldSearch key rest

/-- One anchored attempt of `"name"\s*:\s*"([^"]+)"`: returns the quoted
group. -/
def strFieldAt (key : List Char) (cs : List Char) : Option (List Char) :=
  if List.isPrefixOf key cs then
    match (cs.drop key.length).dropWhile isPyWs with
    | ':' :: r2 =>
      match r2.dropWhile isPyWs with
      | '"' :: r3 =>
        let v := r3.takeWhile (fun c => c ≠ '"')
        if v.isEmpty then none
        else
          match r3.dropWhile (fun c => c ≠ '"') with
          | '"' :: _ => some v
          | _ => none
      | _ => none
    | _ => none
  else none

/-- Leftmost match of `"name"\s*:\s*"([^"]+)"`. -/
def strFieldSearch (key : List Char) : List Char → Option (List Char)
  | [] => none
  | c :: rest =>
    match strFieldAt key (c :: rest) with
    | some v => some v
    | none => strFieldSearch key rest

/-- The five numeric score keys, in the order of the salvage pattern dict. -/
def scoreKeys : List String :=
  ["bandScore", "pronunciationScore", "grammarScore", "vocabularyScore",
   "fluencyScore"]

/-- The per-field regex salvage of `extract_json_from_response`: for each
numeric key, search its pattern and convert the group with `float()`
(a `ValueError` aborts the whole extraction); then the string pattern for
`overallFeedback`.  Fields are inserted in pattern order. -/
def buildScoreFields (cs : List Char) : Option (List (String × JVal)) :=
  let addNum (acc? : Option (List (String × JVal))) (name : String) :
      Option (List (String × JVal)) :=
    acc?.bind (fun acc =>
      match numFieldSearch (quotedKey name) cs with
      | none => some acc
      | some ds => (pyFloatDigits ds).map (fun q => acc ++ [(name, JVal.jnum q)]))
  (scoreKeys.foldl addNum (some [])).map (fun acc =>
    match strFieldSearch (quotedKey "overallFeedback") cs with
    | none => acc
    | some v => acc ++ [("overallFeedback", JVal.jstr (String.mk v))])

/-- `extract_json_from_response`: the score extractor.  First the
`bandScore`-bearing brace span, then the whole text as JSON, then the
per-field regex salvage.  `none` is an uncaught exception. -/
def extract_json_from_response (t : String) : Option JVal :=
  let cs := t.toList
  match (bandSpanSearch cs).bind (fun sp => jsonParse (String.mk sp)) with
  | some v => some v
  | none =>
    match jsonParse t with
    | some v => some v
    | none => (buildScoreFields cs).map .jobj

/-- `clamp_score`: clamp into the valid band range. -/
def clamp_score (q : ℚ) : ℚ := max 0 (min 9 q)

/-- The finalized scoring response. -/
structure ScoreResponse where
  bandScore : ℚ
  pronunciationScore : ℚ
  grammarScore : ℚ
  vocabularyScore : ℚ
  fluencyScore : ℚ
  overallFeedback : JVal
deriving DecidableEq

/-- The validation/default/clamp step of the `score` endpoint: `float()` of
each recovered field (or its documented default), clamped; the feedback is
taken as recovered or defaulted.  `none` is an uncaught exception (a
non-dict extraction or a `float()` failure), which the endpoint maps to an
HTTP 500. -/
def finalizeScore (result : JVal) : Option ScoreResponse :=
  match result with
  | .jobj kvs => do
    let band ← pyFloatOf ((JVal.lookup kvs "bandScore").getD (.jnum 6.5))
    let pron ← pyFloatOf ((JVal.lookup kvs "pronunciationScore").getD (.jnum 6.0))
    let gram ← pyFloatOf ((JVal.lookup kvs "grammarScore").getD (.jnum 6.5))
    let voc ← pyFloatOf ((JVal.lookup kvs "vocabularyScore").getD (.jnum 6.0))
    let flu ← pyFloatOf ((JVal.lookup kvs "fluencyScore").getD (.jnum 6.5))
    let fb := (JVal.lookup kvs "overallFeedback").getD (.jstr "Evaluation completed.")
    pure ⟨clamp_score band, clamp_score pron, clamp_score gram,
          clamp_score voc, clamp_score flu, fb⟩
  | _ => none

/-- The `score` endpoint after the upstream call: extraction followed by
finalization. -/
def scoreEndpoint (modelText : String) : Option ScoreResponse :=
  (extract_json_from_response modelText).bind finalizeScore

/-! ## Python dict/list operations with exceptions -/

/-- `x.get(k)`: `none` when the key is missing; an `AttributeError` when `x`
is not a dict. -/
def jvGet : JVal → String → Except String (Option JVal)
  | .jobj kvs, k => .ok (JVal.lookup kvs k)
  | _, _ => .error "AttributeError: get on a non-dict"

/-- `x[k]`: a `KeyError` when missing, a `TypeError` when `x` is not a
dict. -/
def jvIndex : JVal → String → Except String JVal
  | .jobj kvs, k =>
    match JVal.lookup kvs k with
    | some v => .ok v
    | none => .error ("KeyError: " ++ k)
  | _, _ => .error "TypeError: string index on a non-dict"

/-- `k in x`: key membership on a dict, element membership on a list,
substring on a string; a `TypeError` otherwise. -/
def jvContains : JVal → String → Except String Bool
  | .jobj kvs, k => .ok (JVal.lookup kvs k).isSome
  | .jarr xs, k => .ok (xs.any (fun v => v = .jstr k))
  | .jstr s, k => .ok (strContainsSub s k)
  | _, _ => .error "TypeError: argument of in is not iterable"

/-- `x[k] = v` on a dict (every modelled assignment site has already
established that `x` is a dict, so the other cases are inert). -/
def jvSetD : JVal → String → JVal → JVal
  | .jobj kvs, k, v => .jobj (JVal.setKey kvs k v)
  | other, _, _ => other

/-- Python `str(x)`.  Exact on the values the modelled flows produce
(strings, integers, booleans, `None`); the textual `repr` of containers and
non-integer floats is abbreviated, and nothing proved below depends on it. -/
def pyStr : JVal → String
  | .jstr s => s
  | .jnull => "None"
  | .jbool b => if b then "True" else "False"
  | .jnum q => if q.den = 1 then toString q.num else toString q
  | .jarr _ => "[...]"
  | .jobj _ => "\x7b...\x7d"

/-! ## The `correct_grammar` pipeline (`/api/v2/grammar/correct`) -/

/-- The shape of a well-formed grammar-correction extraction: the four
expected keys in prompt order. -/
def grammarShape (o c : String) (cors : List JVal) (e : String) : JVal :=
  .jobj [("original", .jstr o), ("corrected", .jstr c),
         ("corrections", .jarr cors), ("explanation", .jstr e)]

/-- Outcome of the body of one retry-loop attempt of `correct_grammar`:
an exception before `result` is assigned, a stored extraction with its
completeness verdict, or a stored extraction whose completeness check
raised. -/
inductive AttemptOutcome where
  | preErr : String → AttemptOutcome
  | checked : JVal → Bool → AttemptOutcome
  | postErr : JVal → String → AttemptOutcome

/-- One attempt: call upstream (the oracle), extract, then test
`result.get("corrected")` for truthiness and compare its length against
`len(transcription) * 0.6`. -/
def grammarAttempt (t : String) (resp? : Option String) : AttemptOutcome :=
  match resp? with
  | none => .preErr "upstream generation error"
  | some resp =>
    let r := extract_json_from_generate_response resp
    match jvGet r "corrected" with
    | .error e => .postErr r e
    | .ok v? =>
      let cv := v?.getD .jnull
      if cv.truthy then
        match cv.pyLen with
        | none => .postErr r "TypeError: len"
        | some n => .checked r (decide ((t.length : ℚ) * (6 / 10) ≤ (n : ℚ)))
      else .checked r false

/-- The retry loop of `correct_grammar` (`for attempt in range(3)`): break on
a complete verdict, continue otherwise, re-raise an exception of the last
attempt; `result` keeps the most recent extraction across attempts.  Returns
the stored extraction (or the re-raised error) and the number of upstream
calls issued. -/
def grammarLoop (t : String) (oracle : Nat → Option String) :
    Except String (Option JVal) × Nat :=
  go 3 0 none 0
where
  go : Nat → Nat → Option JVal → Nat → Except String (Option JVal) × Nat
    | 0, _, res, calls => (.ok res, calls)
    | rem + 1, a, res, calls =>
      match grammarAttempt t (oracle a) with
      | .checked r true => (.ok (some r), calls + 1)
      | .checked r false =>
        if rem = 0 then (.ok (some r), calls + 1)
        else go rem (a + 1) (some r) (calls + 1)
      | .postErr r e =>
        if rem = 0 then (.error e, calls + 1)
        else go rem (a + 1) (some r) (calls + 1)
      | .preErr e =>
        if rem = 0 then (.error e, calls + 1)
        else go rem (a + 1) res (calls + 1)

/-- `f"Made \x7bn\x7d correction(s) to improve grammar and clarity."` -/
def madeMsgClarity (n : Nat) : String :=
  "Made " ++ toString n ++ " correction(s) to improve grammar and clarity."

/-- `f"Made \x7bn\x7d correction(s) to improve grammar."` -/
def madeMsgGrammar (n : Nat) : String :=
  "Made " ++ toString n ++ " correction(s) to improve grammar."

/-- `f"Made \x7bn\x7d correction(s) including grammar, punctuation, and style
improvements."` -/
def madeMsgStyle (n : Nat) : String :=
  "Made " ++ toString n ++
    " correction(s) including grammar, punctuation, and style improvements."

/-- `f"Made \x7bn\x7d correction(s)."` -/
def madeMsgPlain (n : Nat) : String :=
  "Made " ++ toString n ++ " correction(s)."

/-- The canonical no-corrections explanation. -/
def noCorrectionsMsg : String :=
  "No corrections needed. The transcription is grammatically correct."

/-- The explanation installed when the length fallback also fails. -/
def unableMsg : String :=
  "Unable to process corrections. Returning original text unchanged."

/-- The filter of VALIDATION STEP 3: keep only dict corrections carrying all
of `original`, `corrected`, `reason`, coerced to string triples. -/
def validCorrections (xs : List JVal) : List JVal :=
  xs.filterMap (fun c =>
    match c with
    | .jobj kvs =>
      if ((JVal.lookup kvs "original").isSome &&
          (JVal.lookup kvs "corrected").isSome &&
          (JVal.lookup kvs "reason").isSome) then
        some (.jobj
          [("original", .jstr (pyStr ((JVal.lookup kvs "original").getD (.jstr "")))),
           ("corrected", .jstr (pyStr ((JVal.lookup kvs "corrected").getD (.jstr "")))),
           ("reason", .jstr (pyStr ((JVal.lookup kvs "reason").getD (.jstr ""))))])
      else none
    | _ => none)

/-- VALIDATION STEPS 1-4 of `correct_grammar`: required fields, then the
`original`, `corrected`, `corrections` and `explanation` normalizations. -/
def gvSteps1to4 (t : String) (r0 : JVal) : Except String JVal := do
  let m1 ← jvContains r0 "original"
  let m2 ← jvContains r0 "corrected"
  if !m1 || !m2 then
    throw "AI response missing required fields"
  let ov ← jvGet r0 "original"
  let r1 :=
    match ov.getD .jnull with
    | .jstr s =>
      if s = "" then jvSetD r0 "original" (.jstr t)
      else
        let st := pyStrip s
        if (st.length : ℚ) < (t.length : ℚ) * (8 / 10) then
          jvSetD r0 "original" (.jstr t)
        else jvSetD r0 "original" (.jstr st)
    | _ => jvSetD r0 "original" (.jstr t)
  let cv ← jvGet r1 "corrected"
  let r2 :=
    match cv.getD .jnull with
    | .jstr s =>
      if s = "" then jvSetD r1 "corrected" (.jstr t)
      else jvSetD r1 "corrected" (.jstr (pyStrip s))
    | _ => jvSetD r1 "corrected" (.jstr t)
  let cors ← jvGet r2 "corrections"
  let r3 :=
    match cors with
    | some (.jarr xs) => jvSetD r2 "corrections" (.jarr (validCorrections xs))
    | _ => jvSetD r2 "corrections" (.jarr [])
  let ncors ← do
    let x ← jvIndex r3 "corrections"
    match x.pyLen with
    | some n => pure n
    | none => throw "TypeError: len"
  let o4 ← jvIndex r3 "original"
  let c4 ← jvIndex r3 "corrected"
  let ev ← jvGet r3 "explanation"
  let r4 :=
    match ev.getD .jnull with
    | .jstr s =>
      let st := pyStrip s
      if st = "" then
        jvSetD r3 "explanation" (.jstr
          (if 0 < ncors then madeMsgGrammar ncors
           else if o4 ≠ c4 then "Made minor adjustments for better grammar."
           else noCorrectionsMsg))
      else jvSetD r3 "explanation" (.jstr st)
    | _ =>
      jvSetD r3 "explanation" (.jstr
        (if 0 < ncors then madeMsgClarity ncors
         else if o4 ≠ c4 then
           "Made minor adjustments to improve grammar and naturalness."
         else noCorrectionsMsg))
  pure r4

/-- The refusal assignments shared by the failure paths of VALIDATION STEP 5:
echo the transcription, clear the corrections, install the explanation. -/
def gvRefuse (t : String) (r : JVal) : JVal :=
  jvSetD (jvSetD (jvSetD r "corrected" (.jstr t)) "corrections" (.jarr []))
    "explanation" (.jstr unableMsg)

/-- VALIDATION STEP 5: when the corrected text is implausibly short
(`original_len > 30` and `corrected_len < original_len * 0.6`), issue one
simplified fallback call; adopt its result when long enough, otherwise (or on
any exception) fall back to echoing the original text.  Returns the updated
result (or the propagated exception) and whether the fallback call was
issued. -/
def gvStep5 (t : String) (r4 : JVal) (fResp? : Option String) :
    Except String JVal × Bool :=
  let lens : Except String (Nat × Nat) := do
    let ov ← jvIndex r4 "original"
    let cv ← jvIndex r4 "corrected"
    let olen ← match ov.pyLen with
      | some n => pure n
      | none => throw "TypeError: len"
    let clen ← match cv.pyLen with
      | some n => pure n
      | none => throw "TypeError: len"
    pure (olen, clen)
  match lens with
  | .error e => (.error e, false)
  | .ok (olen, clen) =>
    if 30 < olen ∧ (clen : ℚ) < (olen : ℚ) * (6 / 10) then
      let after : JVal :=
        match fResp? with
        | none => gvRefuse t r4
        | some resp =>
          let fr := extract_json_from_generate_response resp
          match jvGet fr "corrected" with
          | .error _ => gvRefuse t r4
          | .ok fcv? =>
            let fcv := fcv?.getD .jnull
            if fcv.truthy then
              match fcv.pyLen with
              | none => gvRefuse t r4
              | some fl =>
                if (olen : ℚ) * (6 / 10) ≤ (fl : ℚ) then fr else gvRefuse t r4
            else gvRefuse t r4
      let recheck : Except String Unit := do
        let cv2 ← jvIndex after "corrected"
        match cv2.pyLen with
        | some _ => pure ()
        | none => throw "TypeError: len"
      match recheck with
      | .error e => (.error e, true)
      | .ok _ => (.ok after, true)
    else (.ok r4, false)

/-- VALIDATION STEP 6, the final consistency check: a non-empty corrections
list with an explanation claiming "no correction" gets the explanation
rewritten to the correction count; identical original and corrected texts
with a non-empty corrections list get the list cleared and the explanation
normalized. -/
def gvStep6 (r5 : JVal) : Except String JVal := do
  let cors ← jvIndex r5 "corrections"
  let ncors ← match cors.pyLen with
    | some n => pure n
    | none => throw "TypeError: len"
  let r6 ←
    if 0 < ncors then do
      let ev ← jvIndex r5 "explanation"
      match ev with
      | .jstr s =>
        pure (if strContainsSub (pyLower s) "no correction" then
          jvSetD r5 "explanation" (.jstr (madeMsgStyle ncors)) else r5)
      | _ => throw "AttributeError: lower on a non-string"
    else pure r5
  let ov ← jvIndex r6 "original"
  let cv ← jvIndex r6 "corrected"
  if ov = cv then do
    let cors2 ← jvIndex r6 "corrections"
    let n2 ← match cors2.pyLen with
      | some n => pure n
      | none => throw "TypeError: len"
    if 0 < n2 then
      pure (jvSetD (jvSetD r6 "corrections" (.jarr []))
        "explanation" (.jstr noCorrectionsMsg))
    else pure r6
  else pure r6

/-- The validated grammar-correction response
(`GrammarCorrectionResponse`). -/
structure GrammarResult where
  original : String
  corrected : String
  corrections : List (List (String × JVal))
  explanation : String
deriving DecidableEq

/-- The FINAL SAFETY CHECK: rebuild the four fields with defaults, replace
empty strings, and validate through the response model (each correction must
be a dict). -/
def gvFinal (t : String) (r6 : JVal) : Except String GrammarResult := do
  let og ← jvGet r6 "original"
  let cg ← jvGet r6 "corrected"
  let csg ← jvGet r6 "corrections"
  let eg ← jvGet r6 "explanation"
  let orig0 := pyStr (og.getD (.jstr t))
  let corr0 := pyStr (cg.getD (.jstr t))
  let cors0 : List JVal :=
    match csg with
    | some (.jarr xs) => xs
    | _ => []
  let expl0 :=
    match eg with
    | some v => if v.truthy then pyStr v else "Grammar correction completed."
    | none => "Grammar correction completed."
  let orig1 := if orig0 = "" then t else orig0
  let corr1 := if corr0 = "" then t else corr0
  let expl1 :=
    if expl0 = "" then
      (if 0 < cors0.length then madeMsgPlain cors0.length
       else "No corrections needed.")
    else expl0
  let cdicts ← cors0.mapM (fun c =>
    match c with
    | .jobj kvs => pure kvs
    | _ => throw "ValidationError: corrections items must be dicts")
  pure ⟨orig1, corr1, cdicts, expl1⟩

/-- The whole `correct_grammar` pipeline after input validation, as a function
of the stripped transcription and the upstream oracle: the retry loop, the
validation steps, the optional fallback call, and the final safety check.
Returns the response (or the HTTP-500 error) and the number of upstream
generation calls issued. -/
def correctGrammarCore (t : String) (oracle : Nat → Option String) :
    Except String GrammarResult × Nat :=
  match grammarLoop t oracle with
  | (.error e, calls) => (.error e, calls)
  | (.ok none, calls) => (.error "Failed to get complete response", calls)
  | (.ok (some r0), calls) =>
    match gvSteps1to4 t r0 with
    | .error e => (.error e, calls)
    | .ok r4 =>
      match gvStep5 t r4 (oracle calls) with
      | (r5e, used) =>
        let calls2 := calls + (if used then 1 else 0)
        match r5e with
        | .error e => (.error e, calls2)
        | .ok r5 =>
          match (gvStep6 r5).bind (gvFinal t) with
          | .error e => (.error e, calls2)
          | .ok res => (.ok res, calls2)

/-- The endpoint including the empty-transcription guard (HTTP 400). -/
def correctGrammarEndpoint (transcription : String)
    (oracle : Nat → Option String) : Except String GrammarResult × Nat :=
  if pyStrip transcription = "" then
    (.error "Transcription cannot be empty", 0)
  else correctGrammarCore (pyStrip transcription) oracle

/-! ## The `generate_vocabulary` pipeline (`/api/v2/generate/vocabulary`) -/

/-- A validated vocabulary item (`VocabularyItem`): three required string
fields and an optional pronunciation. -/
structure VocabItem where
  word : String
  definition : String
  exampleText : String
  pronunciation : Option String
deriving DecidableEq

/-- Validation of one vocabulary item through the response model. -/
def buildVocabItem (v : JVal) : Except String VocabItem :=
  match v with
  | .jobj kvs => do
    let w ← match JVal.lookup kvs "word" with
      | some (.jstr s) => pure s
      | _ => throw "ValidationError: word"
    let d ← match JVal.lookup kvs "definition" with
      | some (.jstr s) => pure s
      | _ => throw "ValidationError: definition"
    let e ← match JVal.lookup kvs "example" with
      | some (.jstr s) => pure s
      | _ => throw "ValidationError: example"
    let p ← match JVal.lookup kvs "pronunciation" with
      | some (.jstr s) => pure (some s)
      | some .jnull => pure none
      | none => pure none
      | some _ => throw "ValidationError: pronunciation"
    pure ⟨w, d, e, p⟩
  | _ => throw "ValidationError: item is not a dict"

/-- The retry loop of `generate_vocabulary` (`for attempt in range(3)`):
break once the recovered `vocabulary` list has at least the requested count,
retry otherwise; exceptions propagate immediately.  `result` is the last
extraction.  Returns it with the number of upstream calls issued. -/
def vocabLoop (count : Nat) (oracle : Nat → Option String) :
    Except String JVal × Nat :=
  go 3 0 0
where
  go : Nat → Nat → Nat → Except String JVal × Nat
    | 0, _, calls => (.error "loop exhausted", calls)
    | rem + 1, a, calls =>
      match oracle a with
      | none => (.error "upstream generation error", calls + 1)
      | some resp =>
        let r := extract_json_from_generate_response resp
        match jvContains r "vocabulary" with
        | .error e => (.error e, calls + 1)
        | .ok has =>
          if has then
            match jvIndex r "vocabulary" with
            | .error e => (.error e, calls + 1)
            | .ok vv =>
              match vv with
              | .jarr xs =>
                if count ≤ xs.length then (.ok r, calls + 1)
                else if rem = 0 then (.ok r, calls + 1)
                else go rem (a + 1) (calls + 1)
              | _ =>
                if rem = 0 then (.ok r, calls + 1)
                else go rem (a + 1) (calls + 1)
          else
            if rem = 0 then (.ok r, calls + 1)
            else go rem (a + 1) (calls + 1)

/-- The post-loop shape handling of `generate_vocabulary`: wrap a bare item
or a bare list of items under `vocabulary`, raise on unrecoverable shapes,
then validate through the response model.  The under-count case is accepted
as is. -/
def vocabPost (r : JVal) : Except String (List VocabItem) := do
  let has ← jvContains r "vocabulary"
  let r2 ←
    if has then pure r
    else do
      let k1 ← jvContains r "word"
      let k2 ← if k1 then jvContains r "definition" else pure false
      let k3 ← if k1 && k2 then jvContains r "example" else pure false
      if k1 && k2 && k3 then
        pure (JVal.jobj [("vocabulary", .jarr [r])])
      else
        match r with
        | .jarr (x :: xs) =>
          match x with
          | .jobj kvs =>
            if vocabItemKeys.all (fun k => (JVal.lookup kvs k).isSome) then
              pure (JVal.jobj [("vocabulary", .jarr (x :: xs))])
            else throw "Invalid response format: missing vocabulary field"
          | _ => throw "Invalid response format: missing vocabulary field"
        | _ => throw "Invalid response format: missing vocabulary field"
  match r2 with
  | .jobj kvs =>
    match JVal.lookup kvs "vocabulary" with
    | some (.jarr xs) => xs.mapM buildVocabItem
    | some _ => throw "ValidationError: vocabulary is not a list"
    | none => throw "ValidationError: vocabulary missing"
  | _ => throw "TypeError: argument is not a mapping"

/-- The whole `generate_vocabulary` pipeline as a function of the resolved
requested count and the upstream oracle.  Returns the validated item list (or
the HTTP-500 error) and the number of upstream calls issued. -/
def generateVocabularyCore (count : Nat) (oracle : Nat → Option String) :
    Except String (List VocabItem) × Nat :=
  match vocabLoop count oracle with
  | (.error e, calls) => (.error e, calls)
  | (.ok r, calls) =>
    match vocabPost r with
    | .error e => (.error e, calls)
    | .ok items => (.ok items, calls)

/-! # Theorems

The remainder of the file settles the claims against the definitions above. -/

/-- Monadic bind on an `ok` result reduces. -/
theorem exBind_ok {ε α β : Type} (a : α) (f : α → Except ε β) :
    (Except.ok a : Except ε α) >>= f = f a := rfl

/-- Monadic bind on an `error` result reduces. -/
theorem exBind_err {ε α β : Type} (e : ε) (f : α → Except ε β) :
    (Except.error e : Except ε α) >>= f = Except.error e := rfl

/-- `pure` in the `Except` monad is `ok`. -/
theorem exPure {ε α : Type} (a : α) : (pure a : Except ε α) = Except.ok a := rfl

/-- `throw` in the `Except` monad is `error`. -/
theorem exThrow {ε α : Type} (e : ε) : (throw e : Except ε α) = Except.error e :=
  rfl

/-! ## C5: numeric score fields are clamped into `[0.0, 9.0]` -/

/-- **C5**: for every recovered numeric score value `v` of any of the five
score fields, the finalized `score` response contains `max 0 (min 9 v)` for
that field, regardless of magnitude or sign. -/
theorem scoreFieldsClamped (kvs : List (String × JVal)) (resp : ScoreResponse)
    (hfin : finalizeScore (.jobj kvs) = some resp) :
    (∀ v : ℚ, JVal.lookup kvs "bandScore" = some (.jnum v) →
      resp.bandScore = max 0 (min 9 v)) ∧
    (∀ v : ℚ, JVal.lookup kvs "pronunciationScore" = some (.jnum v) →
      resp.pronunciationScore = max 0 (min 9 v)) ∧
    (∀ v : ℚ, JVal.lookup kvs "grammarScore" = some (.jnum v) →
      resp.grammarScore = max 0 (min 9 v)) ∧
    (∀ v : ℚ, JVal.lookup kvs "vocabularyScore" = some (.jnum v) →
      resp.vocabularyScore = max 0 (min 9 v)) ∧
    (∀ v : ℚ, JVal.lookup kvs "fluencyScore" = some (.jnum v) →
      resp.fluencyScore = max 0 (min 9 v)) := by
  simp only [finalizeScore] at hfin
  cases h1 : pyFloatOf ((JVal.lookup kvs "bandScore").getD (.jnum 6.5)) with
  | none => rw [h1] at hfin; simp at hfin
  | some b1 =>
  cases h2 : pyFloatOf ((JVal.lookup kvs "pronunciationScore").getD (.jnum 6.0)) with
  | none => rw [h1, h2] at hfin; simp at hfin
  | some b2 =>
  cases h3 : pyFloatOf ((JVal.lookup kvs "grammarScore").getD (.jnum 6.5)) with
  | none => rw [h1, h2, h3] at hfin; simp at hfin
  | some b3 =>
  cases h4 : pyFloatOf ((JVal.lookup kvs "vocabularyScore").getD (.jnum 6.0)) with
  | none => rw [h1, h2, h3, h4] at hfin; simp at hfin
  | some b4 =>
  cases h5 : pyFloatOf ((JVal.lookup kvs "fluencyScore").getD (.jnum 6.5)) with
  | none => rw [h1, h2, h3, h4, h5] at hfin; simp at hfin
  | some b5 =>
  rw [h1, h2, h3, h4, h5] at hfin
  simp at hfin
  subst hfin
  refine ⟨?_, ?_, ?_, ?_, ?_⟩ <;> intro v hv
  · rw [hv] at h1
    simp only [Option.getD_some, pyFloatOf, Option.some.injEq] at h1
    simp [clamp_score, h1]
  · rw [hv] at h2
    simp only [Option.getD_some, pyFloatOf, Option.some.injEq] at h2
    simp [clamp_score, h2]
  · rw [hv] at h3
    simp only [Option.getD_some, pyFloatOf, Option.some.injEq] at h3
    simp [clamp_score, h3]
  · rw [hv] at h4
    simp only [Option.getD_some, pyFloatOf, Option.some.injEq] at h4
    simp [clamp_score, h4]
  · rw [hv] at h5
    simp only [Option.getD_some, pyFloatOf, Option.some.injEq] at h5
    simp [clamp_score, h5]

/-- The recovered fields of the C5 witness: a band score of `12.7` and a
pronunciation score of `-3.0`. -/
def exScoreKvs : List (String × JVal) :=
  [("bandScore", .jnum (127 / 10)), ("pronunciationScore", .jnum (-3))]

/-- The finalized response of the C5 witness. -/
def exScoreResp : ScoreResponse :=
  ⟨9, 0, 6.5, 6, 6.5, .jstr "Evaluation completed."⟩

/-- Witness for C5: a recovered `12.7` is finalized as `9.0` and a recovered
`-3.0` as `0.0`. -/
theorem scoreFieldsClampedWitness :
    finalizeScore (.jobj exScoreKvs) = some exScoreResp ∧
    exScoreResp.bandScore = max 0 (min 9 (127 / 10 : ℚ)) ∧
    exScoreResp.pronunciationScore = max 0 (min 9 (-3 : ℚ)) := by
  have hfin : finalizeScore (.jobj exScoreKvs) = some exScoreResp := by decide
  have h := scoreFieldsClamped exScoreKvs exScoreResp hfin
  exact ⟨hfin, h.1 (127 / 10) (by decide), h.2.1 (-3) (by decide)⟩

/-! ## C10: missing score fields fall back to the fixed defaults -/

/-- The fixed default scoring response. -/
def defaultScoreResp : ScoreResponse :=
  ⟨6.5, 6.0, 6.5, 6.0, 6.5, .jstr "Evaluation completed."⟩

/-- **C10 (amended)**: when the score extractor recovers a *dict* carrying
none of the five score fields nor `overallFeedback`, the endpoint still
returns the complete response with the documented defaults - no error, no
absent key.  (The dict restriction is necessary: a raw text whose whole-text
parse yields a non-dict also recovers no score fields, but errors out; see
the counterexample.) -/
theorem scoreDefaultsWhenNothingRecovered (t : String)
    (kvs : List (String × JVal))
    (hx : extract_json_from_response t = some (.jobj kvs))
    (h1 : JVal.lookup kvs "bandScore" = none)
    (h2 : JVal.lookup kvs "pronunciationScore" = none)
    (h3 : JVal.lookup kvs "grammarScore" = none)
    (h4 : JVal.lookup kvs "vocabularyScore" = none)
    (h5 : JVal.lookup kvs "fluencyScore" = none)
    (h6 : JVal.lookup kvs "overallFeedback" = none) :
    scoreEndpoint t = some defaultScoreResp := by
  unfold scoreEndpoint
  rw [hx]
  show finalizeScore (.jobj kvs) = some defaultScoreResp
  simp only [finalizeScore, h1, h2, h3, h4, h5, h6, Option.getD_none]
  decide

/-- Witness for C10: the text `hello` has no recoverable score fields and the
endpoint returns the defaults. -/
theorem scoreDefaultsWitness : scoreEndpoint "hello" = some defaultScoreResp :=
  scoreDefaultsWhenNothingRecovered "hello" [] (by decide) (by decide)
    (by decide) (by decide) (by decide) (by decide) (by decide)

/-- Counterexample for C10 as stated: the raw text `null` is one from which
the extractor recovers no score fields at all - its whole-text parse yields
the non-dict `None` - yet the endpoint does not return the defaults: the
`.get` on the non-dict raises an `AttributeError`, an HTTP 500. -/
theorem scoreDefaultsCounterexample :
    extract_json_from_response "null" = some .jnull ∧
    scoreEndpoint "null" = none := by
  constructor
  · decide
  · decide

/-! ## C6: the fallback object of the decoder chain -/

/-- **C6 (amended)**: when every strategy fails, the decoder chain returns
(never raises) a fallback object carrying the *stripped* input text under
`content`, the parse-error marker, and a preview truncated to 500
characters. -/
theorem decoderFallbackObject (t : String) (ht : t ≠ "")
    (h1 : jsonParse (pyStrip t) = none)
    (h2 : strategyFenced (pyStrip t).toList = none)
    (h3 : strategyFirstSpan (pyStrip t).toList = none)
    (h4 : strategySalvage (pyStrip t).toList = none)
    (h5 : multiSpanObjs (pyStrip t).toList = []) :
    extract_json_from_generate_response t =
      .jobj [("content", .jstr (pyStrip t)),
             ("_parse_error", .jstr "Could not extract JSON from response"),
             ("_response_preview",
              .jstr (String.mk ((pyStrip t).toList.take 500)))] := by
  unfold extract_json_from_generate_response
  rw [if_neg ht]
  simp only [h1, h2, h3, h4, h5]
  simp

/-- Witness for C6 (amended): a plain prose input yields exactly the fallback
object. -/
theorem decoderFallbackObjectWitness :
    extract_json_from_generate_response "no json here" =
      .jobj [("content", .jstr (pyStrip "no json here")),
             ("_parse_error", .jstr "Could not extract JSON from response"),
             ("_response_preview",
              .jstr (String.mk ((pyStrip "no json here").toList.take 500)))] :=
  decoderFallbackObject "no json here" (by decide) (by decide) (by decide)
    (by decide) (by decide) (by decide)

/-- Counterexample for C6 as stated: on the input `" hello "` the fallback
object carries the stripped text `"hello"` under `content`, not the original
input text `" hello "`. -/
theorem decoderFallbackCounterexample :
    extract_json_from_generate_response " hello " =
      .jobj [("content", .jstr "hello"),
             ("_parse_error", .jstr "Could not extract JSON from response"),
             ("_response_preview", .jstr "hello")] ∧
    ("hello" : String) ≠ " hello " := by
  constructor
  · decide
  · decide

/-! ## C7: the single-key content unwrap of strategy 1 -/

/-- **C7**: when the (stripped) input parses as the one-key object
`\x7b"content": s\x7d` with `s` a string: if `s` parses as an object the
chain returns that object; if `s` fails to parse or parses to a non-object
the chain returns the content object unchanged. -/
theorem contentUnwrap (t s : String)
    (hp : jsonParse (pyStrip t) = some (.jobj [("content", .jstr s)])) :
    (∀ kvs, jsonParse s = some (.jobj kvs) →
      extract_json_from_generate_response t = .jobj kvs) ∧
    ((jsonParse s = none ∨ ∃ v, jsonParse s = some v ∧ ∀ kvs, v ≠ .jobj kvs) →
      extract_json_from_generate_response t =
        .jobj [("content", .jstr s)]) := by
  have ht : t ≠ "" := by
    intro h
    rw [h] at hp
    have hnone : jsonParse (pyStrip "") = none := by decide
    rw [hnone] at hp
    exact Option.noConfusion hp
  constructor
  · intro kvs hkvs
    unfold extract_json_from_generate_response
    rw [if_neg ht]
    simp only [hp]
    simp [unwrapContent, hkvs]
  · intro hfail
    unfold extract_json_from_generate_response
    rw [if_neg ht]
    simp only [hp]
    rcases hfail with hnone | ⟨v, hv, hno⟩
    · simp [unwrapContent, hnone]
    · cases v with
      | jobj kvs => exact absurd rfl (hno kvs)
      | jnull => simp [unwrapContent, hv]
      | jbool b => simp [unwrapContent, hv]
      | jnum q => simp [unwrapContent, hv]
      | jstr s2 => simp [unwrapContent, hv]
      | jarr xs => simp [unwrapContent, hv]

/-- The double-wrapped witness input for C7. -/
def exDoubleWrap : String := "\x7b\"content\": \"\x7b\\\"a\\\": 1\x7d\"\x7d"

/-- Witness for C7: the double-wrapped JSON is unwrapped to the inner
object. -/
theorem contentUnwrapWitness :
    extract_json_from_generate_response exDoubleWrap = .jobj [("a", .jnum 1)] :=
  (contentUnwrap exDoubleWrap "\x7b\"a\": 1\x7d" (by decide)).1
    [("a", .jnum 1)] (by decide)

/-! ## C4: wrapping multiple decoded vocabulary objects -/

/-- **C4 (amended)**: the multi-object wrap applies only after every earlier
strategy has failed; in that case, when the scanner yields more than one
decodable span and every decoded object carries `word`, `definition` and
`example`, the chain returns them as a list under `vocabulary`. -/
theorem multiObjectWrap (t : String) (ht : t ≠ "") (objs : List JVal)
    (h1 : jsonParse (pyStrip t) = none)
    (h2 : strategyFenced (pyStrip t).toList = none)
    (h3 : strategyFirstSpan (pyStrip t).toList = none)
    (h4 : strategySalvage (pyStrip t).toList = none)
    (h5 : multiSpanObjs (pyStrip t).toList = objs)
    (h6 : 1 < objs.length)
    (h7 : objs.all isVocabShaped = true) :
    extract_json_from_generate_response t =
      .jobj [("vocabulary", .jarr objs)] := by
  unfold extract_json_from_generate_response
  rw [if_neg ht]
  simp only [h1, h2, h3, h4, h5]
  simp [h6, h7]

/-- The witness input for C4 (amended): a first undecodable span followed by
two decodable vocabulary items. -/
def exMixedSpans : String :=
  "\x7boops\x7d \x7b\"word\": \"a\", \"definition\": \"b\", \"example\": \"c\"\x7d \x7b\"word\": \"d\", \"definition\": \"e\", \"example\": \"f\"\x7d"

/-- Witness for C4 (amended): with the earlier strategies failing, the two
decodable vocabulary objects are wrapped under `vocabulary`. -/
theorem multiObjectWrapWitness :
    extract_json_from_generate_response exMixedSpans =
      .jobj [("vocabulary", .jarr
        [.jobj [("word", .jstr "a"), ("definition", .jstr "b"),
                ("example", .jstr "c")],
         .jobj [("word", .jstr "d"), ("definition", .jstr "e"),
                ("example", .jstr "f")]])] :=
  multiObjectWrap exMixedSpans (by decide) _ (by decide) (by decide)
    (by decide) (by decide) (by decide) (by decide) (by decide)

/-- The counterexample input for C4 as stated: two decodable vocabulary
spans. -/
def exTwoSpans : String :=
  "\x7b\"word\": \"a\", \"definition\": \"b\", \"example\": \"c\"\x7d \x7b\"word\": \"d\", \"definition\": \"e\", \"example\": \"f\"\x7d"

/-- Counterexample for C4 as stated: on a text whose scanner yields two
balanced spans, both decoding to objects with `word`, `definition` and
`example`, the decoder chain returns the *first* object alone (the
first-balanced-span strategy wins), not the list wrapped under
`vocabulary`. -/
theorem multiObjectWrapCounterexample :
    (multiSpans (pyStrip exTwoSpans).toList).length = 2 ∧
    (multiSpanObjs (pyStrip exTwoSpans).toList).length = 2 ∧
    (multiSpanObjs (pyStrip exTwoSpans).toList).all isVocabShaped = true ∧
    extract_json_from_generate_response exTwoSpans =
      .jobj [("word", .jstr "a"), ("definition", .jstr "b"),
             ("example", .jstr "c")] ∧
    extract_json_from_generate_response exTwoSpans ≠
      .jobj [("vocabulary",
              .jarr (multiSpanObjs (pyStrip exTwoSpans).toList))] := by
  refine ⟨by decide, by decide, by decide, by decide, by decide⟩

/-! ## C2: the bound on upstream generation attempts -/

/-- The retry loop of `correct_grammar` issues at most `rem` further calls. -/
theorem grammarLoopGoCalls (t : String) (oracle : Nat → Option String) :
    ∀ rem a res calls,
      (grammarLoop.go t oracle rem a res calls).2 ≤ calls + rem
  | 0, a, res, calls => by simp [grammarLoop.go]
  | n + 1, a, res, calls => by
    have ih1 := grammarLoopGoCalls t oracle n (a + 1) res (calls + 1)
    have ih2 : ∀ r, (grammarLoop.go t oracle n (a + 1) (some r) (calls + 1)).2 ≤
        calls + 1 + n := fun r => grammarLoopGoCalls t oracle n (a + 1) (some r) (calls + 1)
    unfold grammarLoop.go
    cases h : grammarAttempt t (oracle a) with
    | preErr e =>
      by_cases hn : n = 0
      · simp [hn]
      · simp only [if_neg hn]
        omega
    | checked r c =>
      cases c with
      | true => simp
      | false =>
        by_cases hn : n = 0
        · simp [hn]
        · simp only [if_neg hn]
          have := ih2 r
          omega
    | postErr r e =>
      by_cases hn : n = 0
      · simp [hn]
      · simp only [if_neg hn]
        have := ih2 r
        omega

/-- The retry loop of `generate_vocabulary` issues at most `rem` further
calls. -/
theorem vocabLoopGoCalls (count : Nat) (oracle : Nat → Option String) :
    ∀ rem a calls, (vocabLoop.go count oracle rem a calls).2 ≤ calls + rem
  | 0, a, calls => by simp [vocabLoop.go]
  | n + 1, a, calls => by
    have ih := vocabLoopGoCalls count oracle n (a + 1) (calls + 1)
    unfold vocabLoop.go
    cases h : oracle a with
    | none => simp
    | some resp =>
      cases hc : jvContains (extract_json_from_generate_response resp)
          "vocabulary" with
      | error e => simp [hc]
      | ok has =>
        simp only [hc]
        cases has with
        | false => by_cases hn : n = 0 <;> simp [hn] <;> omega
        | true =>
          cases hi : jvIndex (extract_json_from_generate_response resp)
              "vocabulary" with
          | error e => simp [hi]
          | ok vv =>
            simp only [hi]
            cases vv with
            | jarr xs =>
              by_cases hcount : count ≤ xs.length
              · simp [hcount]
              · by_cases hn : n = 0 <;> simp [hcount, hn] <;> omega
            | jnull => by_cases hn : n = 0 <;> simp [hn] <;> omega
            | jbool b => by_cases hn : n = 0 <;> simp [hn] <;> omega
            | jnum q => by_cases hn : n = 0 <;> simp [hn] <;> omega
            | jstr s => by_cases hn : n = 0 <;> simp [hn] <;> omega
            | jobj kvs => by_cases hn : n = 0 <;> simp [hn] <;> omega

/-- **C2 (amended)**: the number of upstream generation attempts is bounded
by 4 for grammar correction (one first attempt, at most two retry attempts,
and at most one length fallback call) and by 3 for vocabulary generation (one
first attempt, at most two retries). -/
theorem upstreamAttemptBounds :
    (∀ (t : String) (oracle : Nat → Option String),
      (correctGrammarCore t oracle).2 ≤ 4) ∧
    (∀ (count : Nat) (oracle : Nat → Option String),
      (generateVocabularyCore count oracle).2 ≤ 3) := by
  constructor
  · intro t oracle
    have hloop : (grammarLoop t oracle).2 ≤ 3 := by
      unfold grammarLoop
      simpa using grammarLoopGoCalls t oracle 3 0 none 0
    unfold correctGrammarCore
    rcases hgl : grammarLoop t oracle with ⟨lr, calls⟩
    rw [hgl] at hloop
    simp only at hloop
    cases lr with
    | error e => simp; omega
    | ok res? =>
      cases res? with
      | none => simp; omega
      | some r0 =>
        simp only []
        cases h14 : gvSteps1to4 t r0 with
        | error e => simp [h14]; omega
        | ok r4 =>
          simp only []
          rcases h5 : gvStep5 t r4 (oracle calls) with ⟨r5e, used⟩
          cases r5e with
          | error e =>
            cases used <;> simp <;> omega
          | ok r5 =>
            cases h6 : (gvStep6 r5).bind (gvFinal t) with
            | error e => cases used <;> simp [h6] <;> omega
            | ok res => cases used <;> simp [h6] <;> omega
  · intro count oracle
    have hloop : (vocabLoop count oracle).2 ≤ 3 := by
      unfold vocabLoop
      simpa using vocabLoopGoCalls count oracle 3 0 0
    unfold generateVocabularyCore
    rcases hvl : vocabLoop count oracle with ⟨lr, calls⟩
    rw [hvl] at hloop
    simp only at hloop
    cases lr with
    | error e => simp; omega
    | ok r =>
      cases hp : vocabPost r with
      | error e => simp [hp]; omega
      | ok items => simp [hp]; omega

/-- The transcription of the persistent-deficiency scenario: forty
characters. -/
def exT : String := String.mk (List.replicate 40 'a')

/-- An upstream response whose corrected text (5 characters) is far below the
0.6-of-input-length threshold for `exT`. -/
def exDeficient : String :=
  "\x7b\"original\": \"" ++ exT ++
  "\", \"corrected\": \"bbbbb\", \"corrections\": [], \"explanation\": \"Fixed.\"\x7d"

/-- Counterexample for C2 as stated: with a persistently deficient upstream,
grammar correction issues 4 generation attempts (3 in the retry loop plus the
length fallback), exceeding the claimed bound of 3. -/
theorem upstreamAttemptBoundCounterexample :
    (correctGrammarCore exT (fun _ => some exDeficient)).2 = 4 ∧ 3 < 4 :=
  ⟨by decide, by decide⟩

/-! ## C1: persistent length-deficiency in grammar correction -/

/-- A deficient attempt: the extraction carries a non-empty corrected text
shorter than 0.6 of the input length, so the verdict is incomplete. -/
theorem grammarAttempt_deficient (t s c e : String)
    (hx : extract_json_from_generate_response s = grammarShape t c [] e)
    (hc : c ≠ "")
    (hlt : (c.length : ℚ) < (t.length : ℚ) * (6 / 10)) :
    grammarAttempt t (some s) = .checked (grammarShape t c [] e) false := by
  unfold grammarAttempt
  simp only [hx]
  simp [grammarShape, jvGet, JVal.lookup, JVal.truthy, JVal.pyLen, hc]
  exact hlt

/-- One deficient iteration of the retry loop moves on to the next attempt. -/
theorem grammarLoopGoStep (t : String) (oracle : Nat → Option String)
    (rem a calls : Nat) (res : Option JVal) (r : JVal) (s : String)
    (ho : oracle a = some s)
    (hatt : grammarAttempt t (some s) = .checked r false) :
    grammarLoop.go t oracle (rem + 2) a res calls =
      grammarLoop.go t oracle (rem + 1) (a + 1) (some r) (calls + 1) := by
  conv_lhs => unfold grammarLoop.go
  rw [ho, hatt]
  simp

/-- A deficient last iteration ends the loop keeping the extraction. -/
theorem grammarLoopGoLast (t : String) (oracle : Nat → Option String)
    (a calls : Nat) (res : Option JVal) (r : JVal) (s : String)
    (ho : oracle a = some s)
    (hatt : grammarAttempt t (some s) = .checked r false) :
    grammarLoop.go t oracle 1 a res calls = (.ok (some r), calls + 1) := by
  conv_lhs => unfold grammarLoop.go
  rw [ho, hatt]
  simp

/-- Three deficient attempts exhaust the retry loop with the last extraction
and three calls issued. -/
theorem grammarLoop_deficient (t e : String) (oracle : Nat → Option String)
    (c : Nat → String)
    (h : ∀ i, i < 3 → ∃ s, oracle i = some s ∧
      extract_json_from_generate_response s = grammarShape t (c i) [] e ∧
      c i ≠ "" ∧ ((c i).length : ℚ) < (t.length : ℚ) * (6 / 10)) :
    grammarLoop t oracle = (.ok (some (grammarShape t (c 2) [] e)), 3) := by
  obtain ⟨s0, ho0, hx0, hc0, hl0⟩ := h 0 (by omega)
  obtain ⟨s1, ho1, hx1, hc1, hl1⟩ := h 1 (by omega)
  obtain ⟨s2, ho2, hx2, hc2, hl2⟩ := h 2 (by omega)
  have st1 := grammarLoopGoStep t oracle 1 0 0 none
    (grammarShape t (c 0) [] e) s0 ho0
    (grammarAttempt_deficient t s0 (c 0) e hx0 hc0 hl0)
  have st2 := grammarLoopGoStep t oracle 0 1 1
    (some (grammarShape t (c 0) [] e)) (grammarShape t (c 1) [] e) s1 ho1
    (grammarAttempt_deficient t s1 (c 1) e hx1 hc1 hl1)
  have st3 := grammarLoopGoLast t oracle 2 2
    (some (grammarShape t (c 1) [] e)) (grammarShape t (c 2) [] e) s2 ho2
    (grammarAttempt_deficient t s2 (c 2) e hx2 hc2 hl2)
  unfold grammarLoop
  exact st1.trans (st2.trans st3)

/-- On a well-shaped deficient extraction the validation steps 1-4 are the
identity: the echoed original survives the 0.8 check, the corrected and
explanation strings survive stripping, and the empty corrections list
stays. -/
theorem gvSteps1to4_shape (t c e : String)
    (htne : t ≠ "") (hts : pyStrip t = t)
    (hc : c ≠ "") (hcs : pyStrip c = c)
    (hee : e ≠ "") (hes : pyStrip e = e) :
    gvSteps1to4 t (grammarShape t c [] e) = .ok (grammarShape t c [] e) := by
  have h08 : ¬ ((t.length : ℚ) < (t.length : ℚ) * (8 / 10)) := by
    have h0 : (0 : ℚ) ≤ (t.length : ℚ) := Nat.cast_nonneg _
    nlinarith
  unfold gvSteps1to4
  simp [grammarShape, jvContains, jvGet, jvIndex, jvSetD, JVal.lookup,
    JVal.setKey, JVal.truthy, JVal.pyLen, validCorrections,
    exBind_ok, exBind_err, exPure, exThrow,
    hts, hc, hcs, hee, hes, htne, h08]

/-- STEP 5 under persistent deficiency: the fallback call is issued, its
corrected text is also too short (or empty), and the result echoes the
original transcription with the explanatory message. -/
theorem gvStep5_deficient (t c e cf ef fresp : String)
    (hx : extract_json_from_generate_response fresp = grammarShape t cf [] ef)
    (hlen : 30 < t.length)
    (hlt : (c.length : ℚ) < (t.length : ℚ) * (6 / 10))
    (hcf : (cf.length : ℚ) < (t.length : ℚ) * (6 / 10)) :
    gvStep5 t (grammarShape t c [] e) (some fresp) =
      (.ok (grammarShape t t [] unableMsg), true) := by
  unfold gvStep5
  simp only [grammarShape, jvIndex, JVal.lookup, JVal.pyLen]
  simp only [gvRefuse, jvSetD, JVal.setKey, jvGet, hx]
  by_cases hcfe : cf = ""
  · subst hcfe
    simp [JVal.truthy, hlen, hlt, JVal.pyLen, jvIndex, JVal.lookup,
      grammarShape, jvSetD, JVal.setKey, exBind_ok, exBind_err, exPure, exThrow]
  · simp [JVal.truthy, hcfe, hlen, hlt, JVal.pyLen, jvIndex, JVal.lookup,
      grammarShape, jvSetD, JVal.setKey, not_le.mpr hcf,
      exBind_ok, exBind_err, exPure, exThrow]

/-- STEP 6 is the identity on a result with an empty corrections list. -/
theorem gvStep6_emptyCorrections (o c e : String) :
    gvStep6 (grammarShape o c [] e) = .ok (grammarShape o c [] e) := by
  unfold gvStep6
  by_cases hoc : o = c <;>
    simp [grammarShape, jvIndex, JVal.lookup, JVal.pyLen, hoc,
      exBind_ok, exBind_err, exPure, exThrow]

/-- The final safety check on a well-shaped result with non-empty strings is
the evident record. -/
theorem gvFinal_shape (t o c e : String)
    (ho : o ≠ "") (hc : c ≠ "") (he : e ≠ "") :
    gvFinal t (grammarShape o c [] e) = .ok ⟨o, c, [], e⟩ := by
  unfold gvFinal
  simp [grammarShape, jvGet, JVal.lookup, pyStr, JVal.truthy, ho, hc, he,
    exBind_ok, exBind_err, exPure, exThrow, List.mapM, List.mapM.loop]

/-- **C1 (amended)**: for grammar correction the incompleteness threshold is
0.6 of the input length (not 0.5); a deficient recovered output is never
silently accepted as is - it triggers up to two retries and then one
simplified fallback call - but when the deficiency persists through all four
attempts the endpoint returns a *success* echoing the original transcription
as the corrected text with an explanatory message, rather than reporting a
terminal failure naming the observed lengths. -/
theorem grammarPersistentDeficiency (t e : String)
    (oracle : Nat → Option String) (c : Nat → String)
    (hts : pyStrip t = t) (hlen : 30 < t.length)
    (hee : e ≠ "") (hes : pyStrip e = e)
    (hresp : ∀ i, i < 4 → ∃ s, oracle i = some s ∧
      extract_json_from_generate_response s = grammarShape t (c i) [] e ∧
      c i ≠ "" ∧ pyStrip (c i) = c i ∧
      ((c i).length : ℚ) < (t.length : ℚ) * (6 / 10)) :
    correctGrammarCore t oracle = (.ok ⟨t, t, [], unableMsg⟩, 4) := by
  have htne : t ≠ "" := by
    intro h
    rw [h] at hlen
    simp at hlen
  obtain ⟨s2, ho2, hx2, hc2, hs2, hl2⟩ := hresp 2 (by omega)
  obtain ⟨s3, ho3, hx3, hc3, hs3, hl3⟩ := hresp 3 (by omega)
  have hloop := grammarLoop_deficient t e oracle c (fun i hi => by
    obtain ⟨s, h1, h2, h3, _, h5⟩ := hresp i (by omega)
    exact ⟨s, h1, h2, h3, h5⟩)
  unfold correctGrammarCore
  simp only [hloop, gvSteps1to4_shape t (c 2) e htne hts hc2 hs2 hee hes, ho3,
    gvStep5_deficient t (c 2) e (c 3) e s3 hx3 hlen hl2 hl3, Except.bind,
    gvStep6_emptyCorrections t t unableMsg,
    gvFinal_shape t t t unableMsg htne htne
      (show unableMsg ≠ "" by decide), if_true]

/-- The transcription of the C1 witness: thirty-five characters. -/
def exT2 : String := String.mk (List.replicate 35 'x')

/-- The persistently deficient upstream response of the C1 witness. -/
def exDeficient2 : String :=
  "\x7b\"original\": \"" ++ exT2 ++
  "\", \"corrected\": \"yyyy\", \"corrections\": [], \"explanation\": \"Fixed.\"\x7d"

/-- Witness for C1 (amended): a persistently deficient upstream leads to a
success echoing the original transcription after four calls. -/
theorem grammarPersistentDeficiencyWitness :
    correctGrammarCore exT2 (fun _ => some exDeficient2) =
      (.ok ⟨exT2, exT2, [], unableMsg⟩, 4) :=
  grammarPersistentDeficiency exT2 "Fixed." (fun _ => some exDeficient2)
    (fun _ => "yyyy") (by decide) (by decide) (by decide) (by decide)
    (by
      intro i hi
      refine ⟨exDeficient2, rfl, ?_, ?_, ?_, ?_⟩
      · show extract_json_from_generate_response exDeficient2 =
            grammarShape exT2 "yyyy" [] "Fixed."
        decide
      · show ("yyyy" : String) ≠ ""
        decide
      · show pyStrip "yyyy" = "yyyy"
        decide
      · show (("yyyy" : String).length : ℚ) < (exT2.length : ℚ) * (6 / 10)
        decide)

/-- Counterexample for C1 as stated: with a corrected text of length 5
against an input of length 40 - well below the claimed 0.5 threshold - the
deficiency persists through every attempt, yet the endpoint reports success
(echoing the original transcription), not a terminal failure. -/
theorem grammarPersistentDeficiencyCounterexample :
    (("bbbbb" : String).length : ℚ) < (1 / 2) * (exT.length : ℚ) ∧
    correctGrammarCore exT (fun _ => some exDeficient) =
      (.ok ⟨exT, exT, [], unableMsg⟩, 4) :=
  ⟨by decide, by decide⟩

/-! ## C3: vocabulary shortfall retries, then partial acceptance -/

/-- One short-list iteration of the vocabulary loop moves on to the next
attempt. -/
theorem vocabLoopGoStep (count : Nat) (oracle : Nat → Option String)
    (rem a calls : Nat) (s : String) (xs : List JVal)
    (ho : oracle a = some s)
    (hx : extract_json_from_generate_response s =
      .jobj [("vocabulary", .jarr xs)])
    (hshort : xs.length < count) :
    vocabLoop.go count oracle (rem + 2) a calls =
      vocabLoop.go count oracle (rem + 1) (a + 1) (calls + 1) := by
  conv_lhs => unfold vocabLoop.go
  rw [ho]
  simp [hx, jvContains, jvIndex, JVal.lookup, Nat.not_le.mpr hshort]

/-- A short last iteration ends the loop keeping the extraction. -/
theorem vocabLoopGoLast (count : Nat) (oracle : Nat → Option String)
    (a calls : Nat) (s : String) (xs : List JVal)
    (ho : oracle a = some s)
    (hx : extract_json_from_generate_response s =
      .jobj [("vocabulary", .jarr xs)])
    (hshort : xs.length < count) :
    vocabLoop.go count oracle 1 a calls =
      (.ok (.jobj [("vocabulary", .jarr xs)]), calls + 1) := by
  conv_lhs => unfold vocabLoop.go
  rw [ho]
  simp [hx, jvContains, jvIndex, JVal.lookup, Nat.not_le.mpr hshort]

/-- Three short attempts exhaust the vocabulary retry loop with the last
extraction and three calls issued. -/
theorem vocabLoop_short (count : Nat) (oracle : Nat → Option String)
    (xs : Nat → List JVal)
    (h : ∀ i, i < 3 → ∃ s, oracle i = some s ∧
      extract_json_from_generate_response s =
        .jobj [("vocabulary", .jarr (xs i))] ∧
      (xs i).length < count) :
    vocabLoop count oracle =
      (.ok (.jobj [("vocabulary", .jarr (xs 2))]), 3) := by
  obtain ⟨s0, ho0, hx0, hl0⟩ := h 0 (by omega)
  obtain ⟨s1, ho1, hx1, hl1⟩ := h 1 (by omega)
  obtain ⟨s2, ho2, hx2, hl2⟩ := h 2 (by omega)
  have st1 := vocabLoopGoStep count oracle 1 0 0 s0 (xs 0) ho0 hx0 hl0
  have st2 := vocabLoopGoStep count oracle 0 1 1 s1 (xs 1) ho1 hx1 hl1
  have st3 := vocabLoopGoLast count oracle 2 2 s2 (xs 2) ho2 hx2 hl2
  unfold vocabLoop
  exact st1.trans (st2.trans st3)

/-- The post-loop shape handling on a wrapped list is exactly the response
validation of the items. -/
theorem vocabPost_wrapped (xs : List JVal) :
    vocabPost (.jobj [("vocabulary", .jarr xs)]) = xs.mapM buildVocabItem := by
  unfold vocabPost
  simp [jvContains, JVal.lookup, exBind_ok, exPure]

/-- **C3 (amended)**: a recovered vocabulary list shorter than the requested
count triggers up to *two* retries of the upstream call (not one), after
which the last partial list is accepted, validated and returned rather than
raising an error. -/
theorem vocabShortfallAccepted (count : Nat) (oracle : Nat → Option String)
    (xs : Nat → List JVal) (items : List VocabItem)
    (hresp : ∀ i, i < 3 → ∃ s, oracle i = some s ∧
      extract_json_from_generate_response s =
        .jobj [("vocabulary", .jarr (xs i))] ∧
      (xs i).length < count)
    (hval : (xs 2).mapM buildVocabItem = .ok items) :
    generateVocabularyCore count oracle = (.ok items, 3) := by
  have hloop := vocabLoop_short count oracle xs hresp
  unfold generateVocabularyCore
  simp only [hloop, vocabPost_wrapped (xs 2), hval]

/-- An upstream response carrying a single vocabulary item. -/
def exVocabOne : String :=
  "\x7b\"vocabulary\": [\x7b\"word\": \"w\", \"definition\": \"d\", \"example\": \"e\"\x7d]\x7d"

/-- An upstream response carrying two vocabulary items. -/
def exVocabTwo : String :=
  "\x7b\"vocabulary\": [\x7b\"word\": \"w\", \"definition\": \"d\", \"example\": \"e\"\x7d, \x7b\"word\": \"w2\", \"definition\": \"d2\", \"example\": \"e2\"\x7d]\x7d"

/-- The single decoded vocabulary item of the examples. -/
def exItemOne : JVal :=
  .jobj [("word", .jstr "w"), ("definition", .jstr "d"),
         ("example", .jstr "e")]

/-- The second decoded vocabulary item of the examples. -/
def exItemTwo : JVal :=
  .jobj [("word", .jstr "w2"), ("definition", .jstr "d2"),
         ("example", .jstr "e2")]

/-- Witness for C3 (amended): with three items requested and the upstream
persistently under-delivering (one, one, then two items), the loop retries
twice and the final two-item partial list is accepted and returned. -/
theorem vocabShortfallAcceptedWitness :
    generateVocabularyCore 3
        (fun i => if i < 2 then some exVocabOne else some exVocabTwo) =
      (.ok [⟨"w", "d", "e", none⟩, ⟨"w2", "d2", "e2", none⟩], 3) := by
  refine vocabShortfallAccepted 3 _
    (fun i => if i < 2 then [exItemOne] else [exItemOne, exItemTwo]) _ ?_ ?_
  · intro i hi
    interval_cases i
    · exact ⟨exVocabOne, rfl, by decide, by decide⟩
    · exact ⟨exVocabOne, rfl, by decide, by decide⟩
    · exact ⟨exVocabTwo, rfl, by decide, by decide⟩
  · decide

/-- Counterexample for C3 as stated: a request for two items answered with a
one-item list every time triggers *two* retries (three upstream calls in
all), not at most one, before the partial single-item list is accepted. -/
theorem vocabShortfallCounterexample :
    generateVocabularyCore 2 (fun _ => some exVocabOne) =
      (.ok [⟨"w", "d", "e", none⟩], 3) ∧ 1 < 2 ∧ 2 < 3 :=
  ⟨by decide, by decide, by decide⟩

/-! ## C9: the consistency repair of the grammar validator -/

/-- **C9**: in the final consistency check of the grammar validator, a
non-empty corrections list whose explanation claims "no correction"
(case-insensitive) has the explanation rewritten to reflect the correction
count (when the original and corrected texts differ); and identical original
and corrected texts with a non-empty corrections list have the list cleared
and the explanation normalized.  Both contradictions are repaired in place
and no error is surfaced. -/
theorem grammarConsistencyRepair (o c e : String) (cors : List JVal)
    (hne : cors ≠ []) :
    (o ≠ c → strContainsSub (pyLower e) "no correction" = true →
      gvStep6 (grammarShape o c cors e) =
        .ok (grammarShape o c cors (madeMsgStyle cors.length))) ∧
    (o = c →
      gvStep6 (grammarShape o c cors e) =
        .ok (grammarShape o c [] noCorrectionsMsg)) := by
  have hlen : 0 < cors.length := List.length_pos.mpr hne
  constructor
  · intro hoc hsub
    unfold gvStep6
    simp [grammarShape, jvIndex, JVal.lookup, JVal.pyLen, jvSetD, JVal.setKey,
      hlen, hsub, hoc, exBind_ok, exPure]
  · intro hoc
    subst hoc
    unfold gvStep6
    by_cases hsub : strContainsSub (pyLower e) "no correction" = true
    · simp [grammarShape, jvIndex, JVal.lookup, JVal.pyLen, jvSetD,
        JVal.setKey, hlen, hsub, exBind_ok, exPure]
    · simp [grammarShape, jvIndex, JVal.lookup, JVal.pyLen, jvSetD,
        JVal.setKey, hlen, hsub, exBind_ok, exPure]

/-- A concrete correction entry. -/
def exCorrection : JVal :=
  .jobj [("original", .jstr "go"), ("corrected", .jstr "went"),
         ("reason", .jstr "tense")]

/-- Witness for C9: both repairs at concrete inputs. -/
theorem grammarConsistencyRepairWitness :
    gvStep6 (grammarShape "a" "b" [exCorrection] "No correction needed.") =
      .ok (grammarShape "a" "b" [exCorrection] (madeMsgStyle 1)) ∧
    gvStep6 (grammarShape "a" "a" [exCorrection] "Fixed tense.") =
      .ok (grammarShape "a" "a" [] noCorrectionsMsg) := by
  constructor
  · exact (grammarConsistencyRepair "a" "b" "No correction needed."
      [exCorrection] (by decide)).1 (by decide) (by decide)
  · exact (grammarConsistencyRepair "a" "a" "Fixed tense."
      [exCorrection] (by decide)).2 rfl

/-! ## C8: the decoder chain is the identity on serialized schema objects

A serializer for decoded values (the JSON text `json.dumps` would emit, in
compact form), a conformance predicate capturing the expected schemas of the
source (objects and arrays with string leaves and unique keys - every schema
of the repository has this shape), and the round-trip proof. -/

/-- The character for a hexadecimal digit (lower case). -/
def hexDigitChar (d : Nat) : Char :=
  if d < 10 then Char.ofNat ('0'.toNat + d) else Char.ofNat ('a'.toNat + d - 10)

/-- JSON escape of one character: the two-character escapes, `\u00XX` for the
other control characters, everything else verbatim. -/
def escChar (c : Char) : List Char :=
  if c = '"' then ['\\', '"']
  else if c = '\\' then ['\\', '\\']
  else if c = '\n' then ['\\', 'n']
  else if c = '\t' then ['\\', 't']
  else if c = '\r' then ['\\', 'r']
  else if c = '\x08' then ['\\', 'b']
  else if c = '\x0c' then ['\\', 'f']
  else if c.toNat < 32 then
    ['\\', 'u', '0', '0', hexDigitChar (c.toNat / 16), hexDigitChar (c.toNat % 16)]
  else [c]

/-- Escape of a character list. -/
def escList : List Char → List Char
  | [] => []
  | c :: cs => escChar c ++ escList cs

/-- Serialization of a number (schema objects carry no numbers; only the
integer part is rendered and nothing proved below depends on it). -/
def serNum (q : ℚ) : List Char := (toString q.num).toList

mutual

/-- Serialization of a value, in compact form. -/
def serVal : JVal → List Char
  | .jnull => ['n', 'u', 'l', 'l']
  | .jbool true => ['t', 'r', 'u', 'e']
  | .jbool false => ['f', 'a', 'l', 's', 'e']
  | .jnum q => serNum q
  | .jstr s => '"' :: (escList s.toList ++ ['"'])
  | .jarr xs => '[' :: (serElems xs ++ [']'])
  | .jobj kvs => '{' :: (serFields kvs ++ ['}'])

/-- Serialization of array elements, comma separated. -/
def serElems : List JVal → List Char
  | [] => []
  | [x] => serVal x
  | x :: y :: rest => serVal x ++ ',' :: serElems (y :: rest)

/-- Serialization of object members, comma separated. -/
def serFields : List (String × JVal) → List Char
  | [] => []
  | [(k, v)] => '"' :: (escList k.toList ++ '"' :: ':' :: serVal v)
  | (k, v) :: f :: rest =>
    ('"' :: (escList k.toList ++ '"' :: ':' :: serVal v)) ++
      ',' :: serFields (f :: rest)

end

/-- The serialization of a value as a string. -/
def jsonSerialize (v : JVal) : String := String.mk (serVal v)

/-- The shape of the expected schemas of the source: string leaves, arrays
and objects with unique keys. -/
inductive SchemaVal : JVal → Prop where
  | str (s : String) : SchemaVal (.jstr s)
  | arr (xs : List JVal) : (∀ x ∈ xs, SchemaVal x) → SchemaVal (.jarr xs)
  | obj (kvs : List (String × JVal)) : (∀ kv ∈ kvs, SchemaVal kv.2) →
      (kvs.map Prod.fst).Nodup → SchemaVal (.jobj kvs)

/-- Conformance of a value to an expected schema given by its required
keys. -/
def conformsTo (required : List String) (v : JVal) : Prop :=
  ∃ kvs, v = .jobj kvs ∧ SchemaVal v ∧
    ∀ k ∈ required, (JVal.lookup kvs k).isSome

mutual

/-- Fuel needed by the parser on a serialized value. -/
def fuelNeed : JVal → Nat
  | .jarr xs => 1 + fuelNeedElems xs
  | .jobj kvs => 1 + fuelNeedFields kvs
  | _ => 1

/-- Fuel needed on serialized array elements. -/
def fuelNeedElems : List JVal → Nat
  | [] => 1
  | x :: xs => 1 + fuelNeed x + fuelNeedElems xs

/-- Fuel needed on serialized object members. -/
def fuelNeedFields : List (String × JVal) → Nat
  | [] => 1
  | (_, v) :: kvs => 1 + fuelNeed v + fuelNeedFields kvs

end

/-- Rebuilding a string from its characters is the identity. -/
theorem strMkToList (s : String) : String.mk s.toList = s := rfl

/-- `hexVal?` inverts `hexDigitChar` on digit values. -/
theorem hexVal?_hexDigitChar (d : Nat) (hd : d < 16) :
    hexVal? (hexDigitChar d) = some d := by
  interval_cases d <;> decide

/-- Equation of `parseStrBody` on a unicode escape prefix. -/
theorem parseStrBody_u (u1 u2 u3 u4 : Char) (r : List Char) :
    parseStrBody ('\\' :: 'u' :: u1 :: u2 :: u3 :: u4 :: r) =
      match hexVal? u1, hexVal? u2, hexVal? u3, hexVal? u4 with
      | some a, some b, some c, some d =>
        (parseStrBody r).map (fun p =>
          (Char.ofNat (((a * 16 + b) * 16 + c) * 16 + d) :: p.1, p.2))
      | _, _, _, _ => none := rfl

set_option maxHeartbeats 4000000 in
/-- Equation of `parseStrBody` on an unescaped head character. -/
theorem parseStrBody_cons (c : Char) (l : List Char)
    (h1 : c ≠ '"') (h2 : c ≠ '\\') :
    parseStrBody (c :: l) =
      if c.toNat < 32 then none
      else (parseStrBody l).map (fun p => (c :: p.1, p.2)) := by
  rw [parseStrBody.eq_def]
  split
  · rename_i heq; exact absurd heq (by simp)
  · rename_i r heq
    exact absurd (List.head_eq_of_cons_eq heq) h1
  · rename_i r heq
    exact absurd (List.head_eq_of_cons_eq heq) h2
  · rename_i c' r _ _ _ heq
    obtain ⟨hc, hl⟩ := List.cons_eq_cons.mp heq
    subst hc
    subst hl
    rfl

set_option maxHeartbeats 2000000 in
/-- Decoding the escape of a character list consumes exactly through the
closing quote. -/
theorem parseStrBody_esc : ∀ (cs rest : List Char),
    parseStrBody (escList cs ++ '"' :: rest) = some (cs, rest) := by
  intro cs
  induction cs with
  | nil => intro rest; rfl
  | cons c cs ih =>
    intro rest
    by_cases h1 : c = '"'
    · subst h1
      show (parseStrBody (escList cs ++ '"' :: rest)).map
          (fun p => ('"' :: p.1, p.2)) = some ('"' :: cs, rest)
      rw [ih]
      rfl
    · by_cases h2 : c = '\\'
      · subst h2
        show (parseStrBody (escList cs ++ '"' :: rest)).map
            (fun p => ('\\' :: p.1, p.2)) = some ('\\' :: cs, rest)
        rw [ih]
        rfl
      · by_cases h3 : c = '\n'
        · subst h3
          show (parseStrBody (escList cs ++ '"' :: rest)).map
              (fun p => ('\n' :: p.1, p.2)) = some ('\n' :: cs, rest)
          rw [ih]
          rfl
        · by_cases h4 : c = '\t'
          · subst h4
            show (parseStrBody (escList cs ++ '"' :: rest)).map
                (fun p => ('\t' :: p.1, p.2)) = some ('\t' :: cs, rest)
            rw [ih]
            rfl
          · by_cases h5 : c = '\r'
            · subst h5
              show (parseStrBody (escList cs ++ '"' :: rest)).map
                  (fun p => ('\r' :: p.1, p.2)) = some ('\r' :: cs, rest)
              rw [ih]
              rfl
            · by_cases h6 : c = '\x08'
              · subst h6
                show (parseStrBody (escList cs ++ '"' :: rest)).map
                    (fun p => ('\x08' :: p.1, p.2)) = some ('\x08' :: cs, rest)
                rw [ih]
                rfl
              · by_cases h7 : c = '\x0c'
                · subst h7
                  show (parseStrBody (escList cs ++ '"' :: rest)).map
                      (fun p => ('\x0c' :: p.1, p.2)) =
                    some ('\x0c' :: cs, rest)
                  rw [ih]
                  rfl
                · by_cases h8 : c.toNat < 32
                  · have hdiv : c.toNat / 16 < 16 := by omega
                    have hmod : c.toNat % 16 < 16 := Nat.mod_lt _ (by omega)
                    have hesc : escChar c = ['\\', 'u', '0', '0',
                        hexDigitChar (c.toNat / 16), hexDigitChar (c.toNat % 16)] := by
                      simp [escChar, h1, h2, h3, h4, h5, h6, h7, h8]
                    rw [show escList (c :: cs) = escChar c ++ escList cs from rfl,
                      hesc]
                    simp only [List.cons_append, List.append_assoc, List.nil_append]
                    rw [parseStrBody_u, show hexVal? '0' = some 0 from rfl,
                      hexVal?_hexDigitChar _ hdiv, hexVal?_hexDigitChar _ hmod]
                    show (parseStrBody (escList cs ++ '"' :: rest)).map
                        (fun p => (Char.ofNat (((0 * 16 + 0) * 16 + c.toNat / 16) * 16 +
                          c.toNat % 16) :: p.1, p.2)) = some (c :: cs, rest)
                    rw [ih, show ((0 * 16 + 0) * 16 + c.toNat / 16) * 16 +
                        c.toNat % 16 = c.toNat from by omega, Char.ofNat_toNat]
                    rfl
                  · have hesc : escChar c = [c] := by
                      simp [escChar, h1, h2, h3, h4, h5, h6, h7, h8]
                    rw [show escList (c :: cs) = escChar c ++ escList cs from rfl,
                      hesc]
                    simp only [List.cons_append, List.nil_append]
                    rw [parseStrBody_cons c _ h1 h2, if_neg h8, ih]
                    rfl

/-- The head of a serialized schema value is a non-whitespace character other
than a closing bracket or brace. -/
theorem serVal_head (v : JVal) (hv : SchemaVal v) :
    ∃ c cs', serVal v = c :: cs' ∧ isJsonWs c = false ∧ c ≠ ']' ∧ c ≠ '}' := by
  cases hv with
  | str s => exact ⟨'"', _, rfl, by decide, by decide, by decide⟩
  | arr xs h => exact ⟨'[', _, rfl, by decide, by decide, by decide⟩
  | obj kvs h hn => exact ⟨'{', _, rfl, by decide, by decide, by decide⟩

/-- Leading whitespace skipping is the identity on a serialized schema value
followed by anything. -/
theorem skipWs_serVal (v : JVal) (hv : SchemaVal v) (rest : List Char) :
    skipWs (serVal v ++ rest) = serVal v ++ rest := by
  obtain ⟨c, cs', hser, hws, _, _⟩ := serVal_head v hv
  rw [hser]
  simp [skipWs, List.dropWhile_cons, hws]

/-- Inserting a fresh key appends. -/
theorem insertField_append (acc : List (String × JVal)) (k : String) (v : JVal)
    (h : ∀ p ∈ acc, p.1 ≠ k) : insertField acc k v = acc ++ [(k, v)] := by
  induction acc with
  | nil => rfl
  | cons p rest ih =>
    obtain ⟨k0, v0⟩ := p
    have hk0 : k0 ≠ k := h (k0, v0) (List.mem_cons_self _ _)
    simp only [insertField, if_neg hk0, List.cons_append, List.cons.injEq,
      true_and]
    exact ih (fun q hq => h q (List.mem_cons_of_mem _ hq))

/-- `(String.mk l).toList` is `l`. -/
theorem toList_mk (l : List Char) : (String.mk l).toList = l := rfl

/-- `skipWs` is the identity on a closing-bracket head. -/
theorem skipWs_rbracket (l : List Char) : skipWs (']' :: l) = ']' :: l := rfl

/-- `skipWs` is the identity on a closing-brace head. -/
theorem skipWs_rbrace (l : List Char) : skipWs ('}' :: l) = '}' :: l := rfl

/-- `skipWs` is the identity on a comma head. -/
theorem skipWs_comma (l : List Char) : skipWs (',' :: l) = ',' :: l := rfl

/-- `skipWs` is the identity on a colon head. -/
theorem skipWs_colon (l : List Char) : skipWs (':' :: l) = ':' :: l := rfl

/-- `skipWs` is the identity on a quote head. -/
theorem skipWs_quote (l : List Char) : skipWs ('"' :: l) = '"' :: l := rfl

/-- Equation of the parser on an opening bracket. -/
theorem parseVal_lbracket (f : Nat) (l : List Char) :
    parseVal (f + 1) ('[' :: l) =
      match skipWs l with
      | ']' :: r2 => some (.jarr [], r2)
      | cs2 => (parseElems f cs2 []).map (fun p => (.jarr p.1, p.2)) := rfl

/-- Equation of the parser on an opening brace. -/
theorem parseVal_lbrace (f : Nat) (l : List Char) :
    parseVal (f + 1) ('{' :: l) =
      match skipWs l with
      | '}' :: r2 => some (.jobj [], r2)
      | cs2 => (parseFields f cs2 []).map (fun p => (.jobj p.1, p.2)) := rfl

/-- A nonempty element list serializes with the first element in front. -/
theorem serElems_cons_eq (z : JVal) (zs : List JVal) :
    ∃ tl, serElems (z :: zs) = serVal z ++ tl := by
  cases zs with
  | nil => exact ⟨[], by simp [serElems]⟩
  | cons w ws => exact ⟨',' :: serElems (w :: ws), rfl⟩

/-- A nonempty member list serializes with an opening quote in front. -/
theorem serFields_cons_head (q : String × JVal) (qs : List (String × JVal)) :
    ∃ tl, serFields (q :: qs) = '"' :: tl := by
  obtain ⟨qk, qv⟩ := q
  cases qs with
  | nil => exact ⟨_, rfl⟩
  | cons w ws => exact ⟨_, rfl⟩

/-- The parser consumes the serialization of every nonempty element list. -/
theorem parseElems_ser : ∀ ys : List JVal,
    (∀ x ∈ ys, SchemaVal x) →
    (∀ x ∈ ys, ∀ g r, fuelNeed x ≤ g → parseVal g (serVal x ++ r) = some (x, r)) →
    ∀ g acc r, ys ≠ [] → fuelNeedElems ys ≤ g →
      parseElems g (serElems ys ++ ']' :: r) acc = some (acc.reverse ++ ys, r) := by
  intro ys
  induction ys with
  | nil => intro _ _ g acc r hne; exact absurd rfl hne
  | cons y ys ihy =>
    intro hS hP g acc r _ hg
    have hgx : 1 + fuelNeed y + fuelNeedElems ys ≤ g := by
      simpa only [fuelNeedElems] using hg
    obtain ⟨g', rfl⟩ : ∃ g', g = g' + 1 := ⟨g - 1, by omega⟩
    cases ys with
    | nil =>
      have hfy : fuelNeed y ≤ g' := by
        have h1 : fuelNeedElems ([] : List JVal) = 1 := rfl
        omega
      rw [show serElems [y] = serVal y from rfl]
      simp only [parseElems]
      rw [hP y (List.mem_cons_self _ _) g' (']' :: r) hfy]
      simp [skipWs_rbracket]
    | cons z zs =>
      have hfy : fuelNeed y ≤ g' := by omega
      have hfe : fuelNeedElems (z :: zs) ≤ g' := by omega
      rw [show serElems (y :: z :: zs) ++ ']' :: r
          = serVal y ++ ',' :: (serElems (z :: zs) ++ ']' :: r) from by
        rw [show serElems (y :: z :: zs)
            = serVal y ++ ',' :: serElems (z :: zs) from rfl]
        simp]
      simp only [parseElems]
      rw [hP y (List.mem_cons_self _ _) g'
        (',' :: (serElems (z :: zs) ++ ']' :: r)) hfy]
      have hskip : skipWs (serElems (z :: zs) ++ ']' :: r)
          = serElems (z :: zs) ++ ']' :: r := by
        obtain ⟨tl, htl⟩ := serElems_cons_eq z zs
        rw [htl, List.append_assoc]
        exact skipWs_serVal z
          (hS z (List.mem_cons_of_mem _ (List.mem_cons_self _ _))) _
      simp [skipWs_comma, hskip,
        ihy (fun x hx => hS x (List.mem_cons_of_mem _ hx))
          (fun x hx => hP x (List.mem_cons_of_mem _ hx)) g' (y :: acc) r
          (by simp) hfe]

/-- The parser consumes the serialization of every nonempty member list whose
keys are fresh for the accumulator and mutually distinct. -/
theorem parseFields_ser : ∀ fkvs : List (String × JVal),
    (∀ kv ∈ fkvs, SchemaVal kv.2) →
    (∀ kv ∈ fkvs, ∀ g r, fuelNeed kv.2 ≤ g →
      parseVal g (serVal kv.2 ++ r) = some (kv.2, r)) →
    ∀ g acc r, fkvs ≠ [] → fuelNeedFields fkvs ≤ g →
      (∀ p ∈ acc, ∀ q ∈ fkvs, p.1 ≠ q.1) →
      (fkvs.map Prod.fst).Nodup →
      parseFields g (serFields fkvs ++ '}' :: r) acc = some (acc ++ fkvs, r) := by
  intro fkvs
  induction fkvs with
  | nil => intro _ _ g acc r hne; exact absurd rfl hne
  | cons kv fkvs ihf =>
    intro hS hP g acc r _ hg hdisj hnd
    obtain ⟨k, v⟩ := kv
    have hgx : 1 + fuelNeed v + fuelNeedFields fkvs ≤ g := by
      simpa only [fuelNeedFields] using hg
    obtain ⟨g', rfl⟩ : ∃ g', g = g' + 1 := ⟨g - 1, by omega⟩
    have hfv : fuelNeed v ≤ g' := by omega
    have hins : insertField acc k v = acc ++ [(k, v)] :=
      insertField_append acc k v
        (fun p hp => hdisj p hp (k, v) (List.mem_cons_self _ _))
    cases fkvs with
    | nil =>
      rw [show serFields [(k, v)] ++ '}' :: r
          = '"' :: (escList k.toList ++ '"' :: ':' :: (serVal v ++ '}' :: r)) from by
        rw [show serFields [(k, v)]
            = '"' :: (escList k.toList ++ '"' :: ':' :: serVal v) from rfl]
        simp]
      simp only [parseFields]
      simp [parseStrBody_esc, skipWs_colon,
        skipWs_serVal v (hS (k, v) (List.mem_cons_self _ _)),
        hP (k, v) (List.mem_cons_self _ _) g' ('}' :: r) hfv,
        strMkToList, hins, skipWs_rbrace]
    | cons q qs =>
      have hfq : fuelNeedFields (q :: qs) ≤ g' := by omega
      rw [show serFields ((k, v) :: q :: qs) ++ '}' :: r
          = '"' :: (escList k.toList ++ '"' :: ':' ::
            (serVal v ++ ',' :: (serFields (q :: qs) ++ '}' :: r))) from by
        rw [show serFields ((k, v) :: q :: qs)
            = ('"' :: (escList k.toList ++ '"' :: ':' :: serVal v)) ++
              ',' :: serFields (q :: qs) from rfl]
        simp]
      have hnd2 : (k :: (q :: qs).map Prod.fst).Nodup := by simpa using hnd
      have hknotin : k ∉ (q :: qs).map Prod.fst := (List.nodup_cons.mp hnd2).1
      have hnd' : ((q :: qs).map Prod.fst).Nodup := (List.nodup_cons.mp hnd2).2
      have hdisj2 : ∀ p ∈ acc ++ [(k, v)], ∀ q' ∈ q :: qs, p.1 ≠ q'.1 := by
        intro p hp q' hq'
        rcases List.mem_append.mp hp with hpa | hpk
        · exact hdisj p hpa q' (List.mem_cons_of_mem _ hq')
        · have hpe : p = (k, v) := by simpa using hpk
          subst hpe
          intro he
          exact hknotin (List.mem_map.mpr ⟨q', hq', he.symm⟩)
      have hskipF : skipWs (serFields (q :: qs) ++ '}' :: r)
          = serFields (q :: qs) ++ '}' :: r := by
        obtain ⟨tl, htl⟩ := serFields_cons_head q qs
        rw [htl, List.cons_append, skipWs_quote]
      simp only [parseFields]
      simp [parseStrBody_esc, skipWs_colon,
        skipWs_serVal v (hS (k, v) (List.mem_cons_self _ _)),
        hP (k, v) (List.mem_cons_self _ _) g'
          (',' :: (serFields (q :: qs) ++ '}' :: r)) hfv,
        strMkToList, hins, skipWs_comma, hskipF,
        ihf (fun kv hkv => hS kv (List.mem_cons_of_mem _ hkv))
          (fun kv hkv => hP kv (List.mem_cons_of_mem _ hkv)) g'
          (acc ++ [(k, v)]) r (by simp) hfq hdisj2 hnd']

/-- The parser reads back the serialization of every schema value, leaving the
rest untouched, whenever the fuel suffices. -/
theorem parseVal_ser (v : JVal) (hv : SchemaVal v) :
    ∀ f rest, fuelNeed v ≤ f → parseVal f (serVal v ++ rest) = some (v, rest) := by
  induction hv with
  | str s =>
    intro f rest hf
    obtain ⟨f', rfl⟩ : ∃ f', f = f' + 1 := ⟨f - 1, by
      simp only [fuelNeed] at hf; omega⟩
    rw [show serVal (.jstr s) ++ rest
        = '"' :: (escList s.toList ++ '"' :: rest) from by simp [serVal]]
    show (parseStrBody (escList s.toList ++ '"' :: rest)).map
        (fun p => (JVal.jstr (String.mk p.1), p.2)) = some (.jstr s, rest)
    rw [parseStrBody_esc]
    rfl
  | arr xs hall ih =>
    intro f rest hf
    obtain ⟨f', rfl⟩ : ∃ f', f = f' + 1 := ⟨f - 1, by
      simp only [fuelNeed] at hf; omega⟩
    cases xs with
    | nil => rfl
    | cons y ys =>
      rw [show serVal (.jarr (y :: ys)) ++ rest
          = '[' :: (serElems (y :: ys) ++ ']' :: rest) from by simp [serVal],
        parseVal_lbracket]
      have hskip : skipWs (serElems (y :: ys) ++ ']' :: rest)
          = serElems (y :: ys) ++ ']' :: rest := by
        obtain ⟨tl, htl⟩ := serElems_cons_eq y ys
        rw [htl, List.append_assoc]
        exact skipWs_serVal y (hall y (List.mem_cons_self _ _)) _
      rw [hskip]
      split
      · rename_i r2 heq
        obtain ⟨c, cs', hser, hws, hrb, hrbr⟩ :=
          serVal_head y (hall y (List.mem_cons_self _ _))
        obtain ⟨tl, htl⟩ := serElems_cons_eq y ys
        rw [htl, hser, List.append_assoc, List.cons_append] at heq
        exact absurd (List.head_eq_of_cons_eq heq) hrb
      · rw [parseElems_ser (y :: ys) hall ih f' [] rest (by simp)
          (by simp only [fuelNeed] at hf; omega)]
        simp
  | obj kvs hall hnd ih =>
    intro f rest hf
    obtain ⟨f', rfl⟩ : ∃ f', f = f' + 1 := ⟨f - 1, by
      simp only [fuelNeed] at hf; omega⟩
    cases kvs with
    | nil => rfl
    | cons kv kvs' =>
      rw [show serVal (.jobj (kv :: kvs')) ++ rest
          = '{' :: (serFields (kv :: kvs') ++ '}' :: rest) from by simp [serVal],
        parseVal_lbrace]
      have hskip : skipWs (serFields (kv :: kvs') ++ '}' :: rest)
          = serFields (kv :: kvs') ++ '}' :: rest := by
        obtain ⟨tl, htl⟩ := serFields_cons_head kv kvs'
        rw [htl, List.cons_append, skipWs_quote]
      rw [hskip]
      split
      · rename_i r2 heq
        obtain ⟨tl, htl⟩ := serFields_cons_head kv kvs'
        rw [htl, List.cons_append] at heq
        exact absurd (List.head_eq_of_cons_eq heq) (by decide)
      · rw [parseFields_ser (kv :: kvs') hall ih f' [] rest (by simp)
          (by simp only [fuelNeed] at hf; omega)
          (fun p hp => absurd hp (List.not_mem_nil p)) hnd]
        simp

/-- The element fuel requirement is bounded by the serialized length. -/
theorem fuelNeedElems_le : ∀ ys : List JVal,
    (∀ x ∈ ys, fuelNeed x + 1 ≤ 2 * (serVal x).length) →
    fuelNeedElems ys ≤ 2 * (serElems ys).length + 1 := by
  intro ys
  induction ys with
  | nil => intro _; simp [fuelNeedElems, serElems]
  | cons y ys ihy =>
    intro hmem
    have hy := hmem y (List.mem_cons_self _ _)
    cases ys with
    | nil =>
      have h1 : fuelNeedElems [y] = 1 + fuelNeed y + 1 := rfl
      have h2 : serElems [y] = serVal y := rfl
      rw [h1, h2]
      omega
    | cons z zs =>
      have ht := ihy (fun x hx => hmem x (List.mem_cons_of_mem _ hx))
      simp only [fuelNeedElems] at ht ⊢
      rw [show serElems (y :: z :: zs)
          = serVal y ++ ',' :: serElems (z :: zs) from rfl]
      simp only [List.length_append, List.length_cons]
      omega

/-- The member fuel requirement is bounded by the serialized length. -/
theorem fuelNeedFields_le : ∀ fkvs : List (String × JVal),
    (∀ kv ∈ fkvs, fuelNeed kv.2 + 1 ≤ 2 * (serVal kv.2).length) →
    fuelNeedFields fkvs ≤ 2 * (serFields fkvs).length + 1 := by
  intro fkvs
  induction fkvs with
  | nil => intro _; simp [fuelNeedFields, serFields]
  | cons kv fkvs ihf =>
    intro hmem
    obtain ⟨k, v⟩ := kv
    have hv : fuelNeed v + 1 ≤ 2 * (serVal v).length :=
      hmem (k, v) (List.mem_cons_self _ _)
    cases fkvs with
    | nil =>
      rw [show serFields [(k, v)]
          = '"' :: (escList k.toList ++ '"' :: ':' :: serVal v) from rfl]
      simp only [fuelNeedFields, List.length_cons, List.length_append]
      omega
    | cons q qs =>
      have ht := ihf (fun kv hkv => hmem kv (List.mem_cons_of_mem _ hkv))
      simp only [fuelNeedFields] at ht ⊢
      rw [show serFields ((k, v) :: q :: qs)
          = ('"' :: (escList k.toList ++ '"' :: ':' :: serVal v)) ++
            ',' :: serFields (q :: qs) from rfl]
      simp only [List.length_append, List.length_cons]
      omega

/-- The parser fuel requirement of a schema value is bounded by twice the
serialized length. -/
theorem fuelNeed_le (v : JVal) (hv : SchemaVal v) :
    fuelNeed v + 1 ≤ 2 * (serVal v).length := by
  induction hv with
  | str s =>
    rw [show serVal (.jstr s) = '"' :: (escList s.toList ++ ['"']) from rfl]
    simp only [fuelNeed, List.length_cons, List.length_append, List.length_nil]
    omega
  | arr xs hall ih =>
    have he := fuelNeedElems_le xs ih
    rw [show serVal (.jarr xs) = '[' :: (serElems xs ++ [']']) from rfl]
    simp only [fuelNeed, List.length_cons, List.length_append, List.length_nil]
    omega
  | obj kvs hall hnd ih =>
    have he := fuelNeedFields_le kvs ih
    rw [show serVal (.jobj kvs) = '{' :: (serFields kvs ++ ['}']) from rfl]
    simp only [fuelNeed, List.length_cons, List.length_append, List.length_nil]
    omega

/-- `str.strip()` is the identity on a brace-delimited character list. -/
theorem stripChars_braced (A : List Char) :
    stripChars ('{' :: (A ++ ['}'])) = '{' :: (A ++ ['}']) := by
  show ((('{' :: (A ++ ['}'])).dropWhile isPyWs).reverse.dropWhile isPyWs).reverse
      = '{' :: (A ++ ['}'])
  rw [show ('{' :: (A ++ ['}'])).dropWhile isPyWs = '{' :: (A ++ ['}']) from rfl]
  rw [show ('{' :: (A ++ ['}'])).reverse = '}' :: (A.reverse ++ ['{']) from by simp]
  rw [show ('}' :: (A.reverse ++ ['{'])).dropWhile isPyWs
      = '}' :: (A.reverse ++ ['{']) from rfl]
  simp

/-- Strategy 1's content unwrap is the identity on every object carrying a
required key other than the single key it rewrites. -/
theorem unwrapContent_conform (kvs : List (String × JVal)) (required : List String)
    (k0 : String) (hk0 : k0 ∈ required) (hk0ne : k0 ≠ "content")
    (hlook : ∀ k ∈ required, (JVal.lookup kvs k).isSome) :
    unwrapContent (.jobj kvs) = .jobj kvs := by
  cases kvs with
  | nil => rfl
  | cons p ps =>
    obtain ⟨k, val⟩ := p
    cases ps with
    | cons q qs => cases val <;> rfl
    | nil =>
      cases val with
      | jstr s =>
        by_cases hk : k = "content"
        · subst hk
          have h := hlook k0 hk0
          rw [show JVal.lookup [("content", JVal.jstr s)] k0 = none from by
            simp [JVal.lookup, (show ¬ ("content" = k0) from
              fun h2 => hk0ne h2.symm)]] at h
          simp at h
        · simp [unwrapContent, hk]
      | jnull => rfl
      | jbool b => rfl
      | jnum n => rfl
      | jarr xs => rfl
      | jobj o => rfl

/-- **C8**: for every object conforming to an expected response schema (string
leaves, unique keys, the schema's required keys present, at least one of them
different from `content`), the decoder chain applied to its serialization
returns the object unchanged: the whole-text parse of strategy 1 succeeds and
neither the content unwrap nor any later strategy alters the result. -/
theorem decoderChainRoundTrip (X : JVal) (required : List String)
    (hconf : conformsTo required X)
    (hkey : ∃ k ∈ required, k ≠ "content") :
    extract_json_from_generate_response (jsonSerialize X) = X := by
  obtain ⟨kvs, rfl, hSv, hlook⟩ := hconf
  obtain ⟨k0, hk0, hk0ne⟩ := hkey
  have hserEq : serVal (.jobj kvs) = '{' :: (serFields kvs ++ ['}']) := rfl
  have htoL : (jsonSerialize (.jobj kvs)).toList = serVal (.jobj kvs) := rfl
  have hne : jsonSerialize (.jobj kvs) ≠ "" := by
    intro h
    have h2 := congrArg String.toList h
    rw [htoL, hserEq] at h2
    have h3 : ('{' :: (serFields kvs ++ ['}']) : List Char) = [] := h2
    exact absurd h3 (by simp)
  have hstrip : pyStrip (jsonSerialize (.jobj kvs)) = jsonSerialize (.jobj kvs) := by
    show String.mk (stripChars (jsonSerialize (.jobj kvs)).toList) = _
    rw [htoL, hserEq, stripChars_braced]
    rfl
  have hfuel : fuelNeed (.jobj kvs) ≤ 2 * (serVal (.jobj kvs)).length + 1 := by
    have h := fuelNeed_le (.jobj kvs) hSv
    omega
  have hskip0 : skipWs (serVal (.jobj kvs)) = serVal (.jobj kvs) := by
    have h := skipWs_serVal (.jobj kvs) hSv []
    simpa using h
  have hpv : parseVal (2 * (serVal (.jobj kvs)).length + 1) (serVal (.jobj kvs))
      = some (.jobj kvs, []) := by
    have h := parseVal_ser (.jobj kvs) hSv
      (2 * (serVal (.jobj kvs)).length + 1) [] hfuel
    simpa using h
  have hparse : jsonParse (jsonSerialize (.jobj kvs)) = some (.jobj kvs) := by
    simp only [jsonParse, htoL, hskip0, hpv]
    rfl
  simp only [extract_json_from_generate_response, if_neg hne, hstrip, hparse]
  exact unwrapContent_conform kvs required k0 hk0 hk0ne hlook

/-- A concrete schema object: the topics response. -/
def exSchemaObj : JVal :=
  .jobj [("topics", .jarr [.jstr "travel", .jstr "food"])]

/-- **C8 witness**: the decoder chain returns the serialized topics object
unchanged. -/
theorem decoderChainRoundTripWitness :
    extract_json_from_generate_response (jsonSerialize exSchemaObj) = exSchemaObj :=
  decoderChainRoundTrip exSchemaObj ["topics"]
    ⟨[("topics", .jarr [.jstr "travel", .jstr "food"])], rfl,
      SchemaVal.obj _
        (by
          intro kv hkv
          simp only [List.mem_singleton] at hkv
          subst hkv
          exact SchemaVal.arr _ (by
            intro x hx
            simp only [List.mem_cons, List.not_mem_nil, or_false] at hx
            rcases hx with h | h
            · subst h; exact SchemaVal.str _
            · subst h; exact SchemaVal.str _))
        (by simp),
      by
        intro k hkk
        simp only [List.mem_singleton] at hkk
        subst hkk
        decide⟩
    ⟨"topics", by simp, by decide⟩

end OllamaV2
